import Mathlib

/-
  Shallow embedding of the FMCSA carrier-extraction pipeline, translated from
  src/extractor.js and src/unnamed/part_000 (two close variants of the same
  scraper).  Pure string processing (HTML field extraction, filters, CSV
  serialization) is translated directly; network effects (fetchRetry) are
  modelled by an oracle mapping each URL to the outcome the fetch would
  produce; host built-ins are modelled explicitly where their behaviour
  matters: new Date parsing as an Option-valued date parser, and new URL
  resolution as an Option-valued resolver whose none models the TypeError the
  host constructor throws on a malformed URL (the two variants guard that
  call differently).
-/

namespace Fmcsa

/-- ASCII fragment of the character set matched by the JS regex class \s and
    stripped by String.prototype.trim. -/
def isWs (c : Char) : Bool :=
  c = ' ' || c = '\t' || c = '\n' || c = '\r' || c = '\x0b' || c = '\x0c'

/-- Case-insensitive character comparison (ASCII), for regexes carrying the
    i flag. -/
def ciEq (a b : Char) : Bool := a.toLower = b.toLower

/-- Case-insensitive literal match at the head of the input; on success,
    returns the input after the literal. -/
def ciPrefix : List Char → List Char → Option (List Char)
  | [], s => some s
  | _ :: _, [] => none
  | p :: ps, c :: cs => if ciEq p c then ciPrefix ps cs else none

/-- Case-sensitive substring test: JS String.prototype.includes. -/
def includes (s pat : String) : Bool :=
  s.toList.tails.any (fun t => pat.toList.isPrefixOf t)

/-- JS String.prototype.toUpperCase on the ASCII range. -/
def jsToUpper (s : String) : String := String.mk (s.toList.map Char.toUpper)

/-- JS String.prototype.split(sep) for a single-character separator: empty
    pieces at the boundaries are kept and the empty string splits to [""]. -/
def splitCharGo (sep : Char) : List Char → List Char → List String
  | cur, [] => [String.mk cur.reverse]
  | cur, c :: cs =>
    if c = sep then String.mk cur.reverse :: splitCharGo sep [] cs
    else splitCharGo sep (c :: cur) cs

/-- JS s.split(sep) for a one-character separator. -/
def jsSplitChar (sep : Char) (s : String) : List String := splitCharGo sep [] s.toList

/-- JS String.prototype.trim (ASCII whitespace). -/
def trimList (l : List Char) : List Char :=
  ((l.dropWhile isWs).reverse.dropWhile isWs).reverse

/-- JS String.prototype.trim on strings. -/
def jsTrim (s : String) : String := String.mk (trimList s.toList)

/- ---- htmlToText: the chain of replaces in htmlToText (identical in both
   source files). -/

/-- One match of the regex <br\s*\/?> (flag gi) at the head of the input; on
    success, the input after the match.  Deterministic: \s* is a maximal
    whitespace run (/ and > are not whitespace). -/
def matchBr (l : List Char) : Option (List Char) :=
  match ciPrefix ['<', 'b', 'r'] l with
  | none => none
  | some r1 =>
    match r1.dropWhile isWs with
    | '/' :: '>' :: rest => some rest
    | '>' :: rest => some rest
    | _ => none

/-- Global replace of <br\s*\/?> by ", ", scanning left to right (the fuel is
    an upper bound on the number of scan steps; each step consumes at least
    one character). -/
def replaceBrGo : Nat → List Char → List Char
  | 0, l => l
  | _ + 1, [] => []
  | fuel + 1, c :: cs =>
    match matchBr (c :: cs) with
    | some rest => ',' :: ' ' :: replaceBrGo fuel rest
    | none => c :: replaceBrGo fuel cs

/-- One match of the regex <[^>]*> at the head of the input: [^>]* must stop
    at the first >, so the match is deterministic. -/
def matchTag : List Char → Option (List Char)
  | '<' :: rest =>
    match rest.dropWhile (fun c => c ≠ '>') with
    | '>' :: rest2 => some rest2
    | _ => none
  | _ => none

/-- Global replace of <[^>]*> by a single space. -/
def replaceTagGo : Nat → List Char → List Char
  | 0, l => l
  | _ + 1, [] => []
  | fuel + 1, c :: cs =>
    match matchTag (c :: cs) with
    | some rest => ' ' :: replaceTagGo fuel rest
    | none => c :: replaceTagGo fuel cs

/-- Global case-sensitive literal replace (the entity decodes carry no i
    flag). -/
def replaceLitGo (pat rep : List Char) : Nat → List Char → List Char
  | 0, l => l
  | _ + 1, [] => []
  | fuel + 1, c :: cs =>
    if pat.isPrefixOf (c :: cs) then
      rep ++ replaceLitGo pat rep fuel ((c :: cs).drop pat.length)
    else c :: replaceLitGo pat rep fuel cs

/-- Global replace of \s+ by a single space. -/
def collapseWsGo : Nat → List Char → List Char
  | 0, l => l
  | _ + 1, [] => []
  | fuel + 1, c :: cs =>
    if isWs c then ' ' :: collapseWsGo fuel (cs.dropWhile isWs)
    else c :: collapseWsGo fuel cs

/-- htmlToText from the source: line breaks become ", ", remaining tags are
    dropped, the four named entities are decoded, whitespace runs collapse to
    one space, and the ends are trimmed.  Empty input yields empty output. -/
def htmlToText (s : String) : String :=
  if s = "" then ""
  else
    let l0 := s.toList
    let l1 := replaceBrGo l0.length l0
    let l2 := replaceTagGo l1.length l1
    let l3 := replaceLitGo "&nbsp;".toList " ".toList l2.length l2
    let l4 := replaceLitGo "&amp;".toList "&".toList l3.length l3
    let l5 := replaceLitGo "&lt;".toList "<".toList l4.length l4
    let l6 := replaceLitGo "&gt;".toList ">".toList l5.length l5
    let l7 := collapseWsGo l6.length l6
    String.mk (trimList l7)

/- ---- extractDataByHeader -/

/-- The lazy capture ([\s\S]*?) followed by a case-insensitive literal: the
    capture runs up to the first occurrence of the literal; none when the
    literal never occurs. -/
def captureUntilCI (pat : List Char) : List Char → Option (List Char)
  | [] => none
  | c :: cs =>
    if (ciPrefix pat (c :: cs)).isSome then some []
    else
      match captureUntilCI pat cs with
      | some cap => some (c :: cap)
      | none => none

/-- One attempt, at the head of the input, of the regex
    >header<\/a><\/th>\s*<td[^>]*>([\s\S]*?)<\/td>  (flag i), returning the
    group-1 capture.  Deterministic: [^>]* stops at the first >, and the lazy
    capture ends at the first occurrence of the closing cell tag. -/
def headerCaptureAt (header l : List Char) : Option (List Char) :=
  match ciPrefix ('>' :: header ++ "</a></th>".toList) l with
  | none => none
  | some r1 =>
    match ciPrefix "<td".toList (r1.dropWhile isWs) with
    | none => none
    | some r2 =>
      match r2.dropWhile (fun c => c ≠ '>') with
      | '>' :: r3 => captureUntilCI "</td>".toList r3
      | _ => none

/-- Search loop of String.prototype.match: try the pattern at each index,
    first success wins. -/
def findHeaderGo (header : List Char) : Nat → List Char → Option (List Char)
  | 0, _ => none
  | _ + 1, [] => none
  | fuel + 1, c :: cs =>
    match headerCaptureAt header (c :: cs) with
    | some cap => some cap
    | none => findHeaderGo header fuel cs

/-- extractDataByHeader from the source: locate the labelled header cell and
    return the normalized text of the adjacent data cell, or the empty string
    when the label is absent (or the capture is empty, which is falsy in JS). -/
def extractDataByHeader (html headerText : String) : String :=
  match findHeaderGo headerText.toList html.toList.length html.toList with
  | some cap => if cap.isEmpty then "" else htmlToText (String.mk cap)
  | none => ""

/- ---- parseAddress -/

/-- The three capture groups of the address regex
    ,?\s*([^,]+),\s*([A-Z]{2})\s*(\d{5}(?:-\d{4})?)
    shared by both source variants. -/
structure AddrGroups where
  city : List Char
  state : List Char
  zip : List Char
deriving DecidableEq

/-- ASCII uppercase letter, the class [A-Z]. -/
def isUpperAZ (c : Char) : Bool := 'A' ≤ c && c ≤ 'Z'

/-- One attempt of the address regex at the head of the input.  The pattern is
    deterministic up to one backtrack: [^,]+ must stop at the first comma; if
    the optional leading comma is taken and the attempt fails, retrying
    without it also fails because [^,]+ cannot start at a comma; and when the
    city slot between the whitespace run and the first comma is empty, \s*
    gives back exactly one whitespace character for [^,]+ to consume. -/
def addrMatchAt (l : List Char) : Option AddrGroups :=
  let j := match l with | ',' :: rest => rest | _ => l
  let w := j.takeWhile isWs
  let r := j.dropWhile isWs
  let cityRun := r.takeWhile (fun c => c ≠ ',')
  match r.dropWhile (fun c => c ≠ ',') with
  | ',' :: rest2 =>
    match
      (if cityRun.isEmpty then
        match w.reverse with
        | lastWs :: _ => some [lastWs]
        | [] => none
      else some cityRun) with
    | none => none
    | some city =>
      match rest2.dropWhile isWs with
      | a :: b :: rest4 =>
        if isUpperAZ a && isUpperAZ b then
          let rest5 := rest4.dropWhile isWs
          if ((rest5.take 5).all Char.isDigit && decide ((rest5.take 5).length = 5)) then
            let zip5 := rest5.take 5
            match rest5.drop 5 with
            | '-' :: d1 :: d2 :: d3 :: d4 :: _ =>
              if [d1, d2, d3, d4].all Char.isDigit then
                some ⟨city, [a, b], zip5 ++ '-' :: [d1, d2, d3, d4]⟩
              else some ⟨city, [a, b], zip5⟩
            | _ => some ⟨city, [a, b], zip5⟩
          else none
        else none
      | _ => none
  | _ => none

/-- Search loop for the address regex: try each start index, first success
    wins. -/
def addrSearchGo : Nat → List Char → Option AddrGroups
  | 0, _ => none
  | _ + 1, [] => none
  | fuel + 1, c :: cs =>
    match addrMatchAt (c :: cs) with
    | some g => some g
    | none => addrSearchGo fuel cs

/-- First match of the address regex anywhere in the string. -/
def addrSearch (s : String) : Option AddrGroups :=
  addrSearchGo s.toList.length s.toList

/-- JS String.prototype.split(/\s+/): maximal whitespace runs are separators;
    boundary empty pieces are kept; the empty string splits to [""]. -/
def splitWsGo : Nat → List Char → List Char → List String
  | 0, cur, _ => [String.mk cur.reverse]
  | _ + 1, cur, [] => [String.mk cur.reverse]
  | fuel + 1, cur, c :: cs =>
    if isWs c then String.mk cur.reverse :: splitWsGo fuel [] (cs.dropWhile isWs)
    else splitWsGo fuel (c :: cur) cs

/-- JS s.split(/\s+/). -/
def jsSplitWs (s : String) : List String := splitWsGo s.toList.length [] s.toList

namespace Part000

/-- Address components returned by parseAddress in src/unnamed/part_000. -/
structure Address where
  city : String
  state : String
  zip : String
deriving DecidableEq

/-- parseAddress from src/unnamed/part_000: on a regex match, the trimmed
    city/state/zip captures; otherwise (including the empty string) all-empty.
    This variant has no comma-split fallback. -/
def parseAddress (addressString : String) : Address :=
  if addressString = "" then ⟨"", "", ""⟩
  else
    match addrSearch addressString with
    | some g => ⟨jsTrim (String.mk g.city), jsTrim (String.mk g.state), jsTrim (String.mk g.zip)⟩
    | none => ⟨"", "", ""⟩

end Part000

namespace Extractor

/-- Address components returned by parseAddress in src/extractor.js: the zip
    capture is discarded (the returned object has only city and state). -/
structure Address where
  city : String
  state : String
deriving DecidableEq

/-- parseAddress from src/extractor.js: on a regex match, trimmed city and
    state (the captured zip is dropped); on no match, a comma-split fallback
    takes the second-to-last segment as city and the first whitespace token of
    the last segment as state; otherwise all-empty. -/
def parseAddress (addressString : String) : Address :=
  if addressString = "" then ⟨"", ""⟩
  else
    match addrSearch addressString with
    | some g => ⟨jsTrim (String.mk g.city), jsTrim (String.mk g.state)⟩
    | none =>
      let parts := jsSplitChar ',' addressString
      if 2 ≤ parts.length then
        let stateZip := jsSplitWs (jsTrim (parts.getD (parts.length - 1) ""))
        ⟨jsTrim (parts.getD (parts.length - 2) ""), stateZip.getD 0 ""⟩
      else ⟨"", ""⟩

end Extractor

/- ---- getXMarkedItems -/

/-- One attempt, at the head of the input, of the row-marker regex
    <td class="queryfield"[^>]*>X<\/td>\s*<td><font[^>]+>([^<]+)<\/font><\/td>
    (flags gi); on success, the group-1 capture and the input after the whole
    match.  Deterministic: every starred class is followed by a character
    outside the class. -/
def xItemAt (l : List Char) : Option (List Char × List Char) :=
  match ciPrefix "<td class=\"queryfield\"".toList l with
  | none => none
  | some r1 =>
    match ciPrefix ">X</td>".toList (r1.dropWhile (fun c => c ≠ '>')) with
    | none => none
    | some r3 =>
      match ciPrefix "<td><font".toList (r3.dropWhile isWs) with
      | none => none
      | some r5 =>
        let nonGt := r5.takeWhile (fun c => c ≠ '>')
        match r5.dropWhile (fun c => c ≠ '>') with
        | '>' :: r6 =>
          if nonGt.isEmpty then none
          else
            let cap := r6.takeWhile (fun c => c ≠ '<')
            if cap.isEmpty then none
            else
              match ciPrefix "</font></td>".toList (r6.dropWhile (fun c => c ≠ '<')) with
              | some r7 => some (cap, r7)
              | none => none
        | _ => none

/-- The exec loop of a global regex: search forward from the end of the
    previous match, collecting group-1 captures. -/
def xScanGo : Nat → List Char → List (List Char)
  | 0, _ => []
  | _ + 1, [] => []
  | fuel + 1, c :: cs =>
    match xItemAt (c :: cs) with
    | some (cap, rest) => cap :: xScanGo fuel rest
    | none => xScanGo fuel cs

/-- All trimmed group-1 captures of the row-marker regex over a fragment, in
    match order (the items array before deduplication). -/
def xItems (l : List Char) : List String :=
  (xScanGo l.length l).map (fun c => jsTrim (String.mk c))

/-- [...new Set(items)]: duplicates removed, first-seen order kept. -/
def dedupFirstGo : List String → List String → List String
  | _, [] => []
  | seen, x :: xs => if x ∈ seen then dedupFirstGo seen xs else x :: dedupFirstGo (x :: seen) xs

/-- [...new Set(items)]. -/
def dedupFirst (l : List String) : List String := dedupFirstGo [] l

/-- Case-insensitive literal search: input after the first occurrence of the
    literal. -/
def findLitCI (pat : List Char) : Nat → List Char → Option (List Char)
  | 0, _ => none
  | _ + 1, [] => none
  | fuel + 1, c :: cs =>
    match ciPrefix pat (c :: cs) with
    | some r => some r
    | none => findLitCI pat fuel cs

/-- The group-1 capture of the section regex
    header<\/a><\/td>[\s\S]*?<table.*?([\s\S]*?)<\/table>  (flag i):
    the fragment between the first <table after the first occurrence of the
    escaped header anchor and the first <\/table> after it.  The lazy
    quantifiers make the match deterministic, and a failure after the first
    anchor occurrence cannot be repaired at a later one. -/
def sectionCapture (html header : List Char) : Option (List Char) :=
  match findLitCI (header ++ "</a></td>".toList) html.length html with
  | none => none
  | some r1 =>
    match findLitCI "<table".toList r1.length r1 with
    | none => none
    | some r2 => captureUntilCI "</table>".toList r2

namespace Part000

/-- getXMarkedItems from src/unnamed/part_000: the whole page is scanned for
    marker rows (this variant takes no section label), duplicates removed in
    first-seen order. -/
def getXMarkedItems (html : String) : List String :=
  dedupFirst (xItems html.toList)

end Part000

namespace Extractor

/-- The fallback branch of getXMarkedItems in src/extractor.js, taken when
    the primary section match fails or captures an empty (falsy) table: only
    when the label contains the literal substring "Operation Classification"
    does it retry, and then with the very same anchored pattern under the
    header "Operation Classification:" — not with the whole page; all other
    labels yield the empty list. -/
def getXFallback (html sectionHeader : String) : List String :=
  if includes sectionHeader "Operation Classification" then
    match sectionCapture html.toList "Operation Classification:".toList with
    | some cap2 => if cap2.isEmpty then [] else dedupFirst (xItems cap2)
    | none => []
  else []

/-- getXMarkedItems from src/extractor.js.  The primary section-scoped regex
    must match with a non-empty (truthy) capture; then the captured table
    fragment is scanned for marker rows and deduplicated; otherwise the
    fallback above runs. -/
def getXMarkedItems (html sectionHeader : String) : List String :=
  match sectionCapture html.toList sectionHeader.toList with
  | some cap =>
    if cap.isEmpty then getXFallback html sectionHeader
    else dedupFirst (xItems cap)
  | none => getXFallback html sectionHeader

end Extractor

/- ---- the JS Number() conversion used by the fleet-size and driver filters -/

/-- Numeric value of a digit string. -/
def digitsToNat (l : List Char) : Nat :=
  l.foldl (fun acc c => acc * 10 + (c.toNat - '0'.toNat)) 0

/-- An exact JS number of decimal shape: the value num / 10^scale.  Keeps the
    Number() conversion inside integer arithmetic (the pipeline only
    compares against 1, which is exact). -/
structure JsNum where
  num : Int
  scale : Nat
deriving DecidableEq

/-- Powers of ten by structural recursion (kernel-reducible). -/
def tenPow : Nat → Nat
  | 0 => 1
  | n + 1 => 10 * tenPow n

/-- The rational value of a parsed JS number. -/
def JsNum.val (x : JsNum) : ℚ := (x.num : ℚ) / ((tenPow x.scale : ℤ) : ℚ)

/-- Model of the JS Number() string conversion on the fragment the pipeline
    meets: after trimming, the empty string converts to 0 and a signed decimal
    literal (digits, an optional fraction part, at least one digit in total)
    converts to its value; anything else is NaN, modelled as none.  (The JS
    conversion also accepts hex, binary, exponent and Infinity forms; those
    never arise from the snapshot fields and are outside the model.) -/
def jsNumber (s : String) : Option JsNum :=
  let t := trimList s.toList
  if t.isEmpty then some ⟨0, 0⟩
  else
    let (sign, t1) : Int × List Char :=
      match t with
      | '-' :: r => (-1, r)
      | '+' :: r => (1, r)
      | _ => (1, t)
    let ip := t1.takeWhile Char.isDigit
    match t1.dropWhile Char.isDigit with
    | [] => if ip.isEmpty then none else some ⟨sign * (digitsToNat ip : Int), 0⟩
    | '.' :: r2 =>
      let fp := r2.takeWhile Char.isDigit
      if (r2.dropWhile Char.isDigit).isEmpty && !(ip.isEmpty && fp.isEmpty) then
        some ⟨sign * ((digitsToNat ip : Int) * (tenPow fp.length : Int) + (digitsToNat fp : Int)),
          fp.length⟩
      else none
    | _ => none

/-- text.replace(/,/g, ''): strip comma thousands separators. -/
def stripCommas (s : String) : String :=
  String.mk (s.toList.filter (fun c => c ≠ ','))

/-- The numeric filter shared by the fleet-size and driver-count stages:
    n = Number(text.replace(/,/g, '')) and the record is skipped when
    isNaN(n) || n < 1.  The test 1 ≤ n is taken on the exact decimal shape:
    10^scale ≤ num. -/
def numFilterPasses (text : String) : Bool :=
  match jsNumber (stripCommas text) with
  | none => false
  | some x => decide ((tenPow x.scale : Int) ≤ x.num)

/- ---- dates: the MCS-150 minimum-age filter -/

/-- Minimum age of the carrier in days (6 months ~ 180 days). -/
def MIN_AGE_DAYS : Nat := 180

/-- Milliseconds per day, the divisor 1000 * 60 * 60 * 24. -/
def msPerDay : Nat := 86400000

/-- Proleptic Gregorian leap year. -/
def isLeap (y : Nat) : Bool := (y % 4 == 0 && y % 100 != 0) || y % 400 == 0

/-- Days in a month of the given year. -/
def daysInMonth (m y : Nat) : Nat :=
  match m with
  | 2 => if isLeap y then 29 else 28
  | 4 => 30
  | 6 => 30
  | 9 => 30
  | 11 => 30
  | _ => 31

/-- Days since 1970-01-01 of a civil date (standard era-based conversion). -/
def daysFromCivil (y m d : Nat) : Int :=
  let ys := if m ≤ 2 then y - 1 else y
  let era := ys / 400
  let yoe := ys % 400
  let mp := (m + 9) % 12
  let doy := (153 * mp + 2) / 5 + d - 1
  let doe := yoe * 365 + yoe / 4 - yoe / 100 + doy
  ((era * 146097 + doe : Nat) : Int) - 719468

/-- Modelled host builtin: new Date(dateStr) for the MM/DD/YYYY strings the
    snapshot pages carry, as a millisecond timestamp at midnight (the local
    zone is taken as UTC); none models an Invalid Date (a NaN timestamp):
    out-of-range month or day, a non-four-digit year, or any other shape. -/
def jsParseDate (s : String) : Option Int :=
  match jsSplitChar '/' (jsTrim s) with
  | [ms, ds, ys] =>
    if !ms.toList.isEmpty && ms.toList.all Char.isDigit &&
        !ds.toList.isEmpty && ds.toList.all Char.isDigit &&
        !ys.toList.isEmpty && ys.toList.all Char.isDigit then
      let m := digitsToNat ms.toList
      let d := digitsToNat ds.toList
      let y := digitsToNat ys.toList
      if 1 ≤ m ∧ m ≤ 12 ∧ 1000 ≤ y ∧ y ≤ 9999 ∧ 1 ≤ d ∧ d ≤ daysInMonth m y then
        some (daysFromCivil y m d * (msPerDay : Int))
      else none
    else none
  | _ => none

/-- Math.ceil(diffTime / (1000*60*60*24)) on the non-negative millisecond
    difference. -/
def ceilDays (diffTime : Nat) : Nat := (diffTime + (msPerDay - 1)) / msPerDay

/-- The minimum-age filter stage of handleMC, on the extracted date string:
    an empty (missing) date is rejected; otherwise diffDays =
    ceil(|today - formDate| / msPerDay) and the record is skipped when
    diffDays < MIN_AGE_DAYS.  When new Date(dateStr) is an Invalid Date the
    subtraction makes diffDays NaN and NaN < MIN_AGE_DAYS is false in JS, so
    the skip branch is not taken and the stage passes. -/
def agePassStr (today : Int) (dateStr : String) : Bool :=
  if dateStr = "" then false
  else
    match jsParseDate dateStr with
    | none => true
    | some t => !decide (ceilDays (today - t).natAbs < MIN_AGE_DAYS)

/- ---- the snapshot URL -/

/-- mc.replace(/\s+/g, ''). -/
def stripAllWs (s : String) : String := String.mk (s.toList.filter (fun c => !isWs c))

/-- Hexadecimal digit character (uppercase, as encodeURIComponent emits). -/
def hexDigitChar (n : Nat) : Char :=
  if n < 10 then Char.ofNat ('0'.toNat + n) else Char.ofNat ('A'.toNat + (n - 10))

/-- UTF-8 bytes of a code point. -/
def utf8Bytes (n : Nat) : List Nat :=
  if n < 0x80 then [n]
  else if n < 0x800 then [0xC0 + n / 0x40, 0x80 + n % 0x40]
  else if n < 0x10000 then [0xE0 + n / 0x1000, 0x80 + n / 0x40 % 0x40, 0x80 + n % 0x40]
  else [0xF0 + n / 0x40000, 0x80 + n / 0x1000 % 0x40, 0x80 + n / 0x40 % 0x40, 0x80 + n % 0x40]

/-- Characters encodeURIComponent leaves as-is. -/
def isUriUnreserved (c : Char) : Bool :=
  c.isAlphanum || c = '-' || c = '_' || c = '.' || c = '!' || c = '~' || c = '*' ||
    c = Char.ofNat 39 || c = '(' || c = ')'

/-- Modelled host builtin: encodeURIComponent (percent-encoding of UTF-8
    bytes, unreserved marks kept). -/
def encodeURIComponent (s : String) : String :=
  String.mk (s.toList.flatMap (fun c =>
    if isUriUnreserved c then [c]
    else (utf8Bytes c.toNat).flatMap (fun b => ['%', hexDigitChar (b / 16), hexDigitChar (b % 16)])))

/-- mcToSnapshotUrl from the source (identical in both variants). -/
def mcToSnapshotUrl (mc : String) : String :=
  "https://safer.fmcsa.dot.gov/query.asp?searchtype=ANY&query_type=queryCarrierSnapshot&query_param=MC_MX&query_string="
    ++ encodeURIComponent (stripAllWs mc)

/- ---- the Resilient Fetcher: fetchRetry -/

/-- Backoff base in milliseconds. -/
def BACKOFF_BASE_MS : Nat := 2000

/-- Max fetch attempts. -/
def MAX_RETRIES : Nat := 3

/-- Observable trace of one fetchRetry run: how many attempts were issued,
    the backoff waits slept after failed attempts (in order), and the value
    returned or the error thrown. -/
structure RetryTrace where
  attemptsMade : Nat
  waits : List Nat
  result : Except String String

/-- throw lastErr || new Error(label + ' failed after ' + tries + ' attempts'). -/
def errOrDefault (label : String) (tries : Nat) : Option String → String
  | some e => e
  | none => label ++ " failed after " ++ toString tries ++ " attempts"

/-- The for-loop of fetchRetry: i is the zero-based attempt index, k the
    remaining iterations, attempt i the outcome the i-th
    fetchWithTimeout(url, timeout) + resp.text() would produce. -/
def fetchRetryGo (attempt : Nat → Except String String) (label : String) (tries : Nat) :
    Nat → Nat → Option String → List Nat → RetryTrace
  | i, 0, lastErr, waits => ⟨i, waits, Except.error (errOrDefault label tries lastErr)⟩
  | i, k + 1, _lastErr, waits =>
    match attempt i with
    | Except.ok b => ⟨i + 1, waits, Except.ok b⟩
    | Except.error e =>
      fetchRetryGo attempt label tries (i + 1) k (some e) (waits ++ [BACKOFF_BASE_MS * 2 ^ i])

/-- fetchRetry(url, tries, timeout, label) from the source, with the network
    abstracted into the per-attempt outcome oracle (the url and timeout are
    folded into it). -/
def fetchRetry (attempt : Nat → Except String String) (tries : Nat) (label : String) : RetryTrace :=
  fetchRetryGo attempt label tries 0 tries none []

/- ---- link, email, MC number and authority-type searches -/

/-- Case-insensitive substring test over character lists. -/
def includesCI (l pat : List Char) : Bool :=
  l.tails.any (fun t => (ciPrefix pat t).isSome)

/-- A JS quote character, the class ["'] of the link regexes. -/
def isQuoteCh (c : Char) : Bool := c = '"' || c = Char.ofNat 39

/-- One attempt, at the head of the input, of a link regex of the shape
    href=["']([^"']*NEEDLE[^"']*)["'] (flag i): after href= and an opening
    quote, the capture is the maximal quote-free run, which must satisfy the
    needle test ok and be terminated by a quote character. -/
def hrefCaptureAt (ok : List Char → Bool) (l : List Char) : Option (List Char) :=
  match ciPrefix "href=".toList l with
  | none => none
  | some r1 =>
    match r1 with
    | [] => none
    | q :: rest =>
      if isQuoteCh q then
        let linkR := rest.takeWhile (fun c => !isQuoteCh c)
        match rest.dropWhile (fun c => !isQuoteCh c) with
        | _ :: _ => if ok linkR then some linkR else none
        | [] => none
      else none

/-- Search loop for a link regex: first start index whose attempt succeeds. -/
def hrefSearchGo (ok : List Char → Bool) : Nat → List Char → Option (List Char)
  | 0, _ => none
  | _ + 1, [] => none
  | fuel + 1, c :: cs =>
    match hrefCaptureAt ok (c :: cs) with
    | some cap => some cap
    | none => hrefSearchGo ok fuel cs

/-- html.match(/href=["']([^"']*(safer_xfr\.aspx|\/SMS\/)[^"']*)["']/i):
    the cross-reference link of the deep-fetch chain. -/
def smsLinkMatch (html : String) : Option String :=
  (hrefSearchGo
      (fun r => includesCI r "safer_xfr.aspx".toList || includesCI r "/SMS/".toList)
      html.toList.length html.toList).map String.mk

/-- smsHtml.match(/href=["']([^"']*CarrierRegistration\.aspx[^"']*)["']/i):
    the registration-detail link of the deep-fetch chain. -/
def regLinkMatch (html : String) : Option String :=
  (hrefSearchGo (fun r => includesCI r "CarrierRegistration.aspx".toList)
      html.toList.length html.toList).map String.mk

/-- The class [a-zA-Z0-9._%+-] (email local part). -/
def isEmailLocal (c : Char) : Bool :=
  c.isAlphanum || c = '.' || c = '_' || c = '%' || c = '+' || c = '-'

/-- The class [a-zA-Z0-9.-] (email domain part). -/
def isEmailDomain (c : Char) : Bool := c.isAlphanum || c = '.' || c = '-'

/-- One attempt, at the head of the input, of the email regex
    ([a-zA-Z0-9._%+-]+@[a-zA-Z0-9.-]+\.[a-zA-Z]{2,}).  The local run and the
    domain run are maximal; greediness of the domain part picks the last dot
    of the run that is followed by at least two ASCII letters. -/
def emailMatchAt (l : List Char) : Option (List Char) :=
  let loc := l.takeWhile isEmailLocal
  if loc.isEmpty then none
  else
    match l.dropWhile isEmailLocal with
    | '@' :: r2 =>
      let body := r2.takeWhile isEmailDomain
      let cands := (List.range body.length).filter (fun k =>
        decide (1 ≤ k) && decide (body.getD k ' ' = '.') &&
          decide (2 ≤ ((body.drop (k + 1)).takeWhile Char.isAlpha).length))
      match cands.max? with
      | some k =>
        some (loc ++ '@' :: (body.take (k + 1) ++ (body.drop (k + 1)).takeWhile Char.isAlpha))
      | none => none
    | _ => none

/-- Search loop for the email regex. -/
def emailSearchGo : Nat → List Char → Option (List Char)
  | 0, _ => none
  | _ + 1, [] => none
  | fuel + 1, c :: cs =>
    match emailMatchAt (c :: cs) with
    | some cap => some cap
    | none => emailSearchGo fuel cs

/-- regHtml.match(/([a-zA-Z0-9._%+-]+@[a-zA-Z0-9.-]+\.[a-zA-Z]{2,})/). -/
def emailSearch (html : String) : Option String :=
  (emailSearchGo html.toList.length html.toList).map String.mk

/-- One attempt of /MC-(\d{3,9})/i (maxD = 9; part_000 uses 7): after the
    literal, the greedy digit run capped at maxD digits, needing at least 3. -/
def mcNumberAt (maxD : Nat) (l : List Char) : Option (List Char) :=
  match ciPrefix "MC-".toList l with
  | none => none
  | some r =>
    let ds := (r.takeWhile Char.isDigit).take maxD
    if 3 ≤ ds.length then some ds else none

/-- Search loop for the MC-number regex. -/
def mcNumberGo (maxD : Nat) : Nat → List Char → Option (List Char)
  | 0, _ => none
  | _ + 1, [] => none
  | fuel + 1, c :: cs =>
    match mcNumberAt maxD (c :: cs) with
    | some cap => some cap
    | none => mcNumberGo maxD fuel cs

/-- html.match(/MC-(\d{3,maxD})/i): group-1 digits of the first match. -/
def mcNumberSearch (maxD : Nat) (html : String) : Option String :=
  (mcNumberGo maxD html.toList.length html.toList).map String.mk

/-- One attempt of /AUTHORIZED FOR (Property|Passenger|HHG)/i; the capture is
    the alternative's span of the input (original case), alternatives tried in
    order. -/
def authTypeAt (l : List Char) : Option (List Char) :=
  match ciPrefix "AUTHORIZED FOR ".toList l with
  | none => none
  | some r =>
    if (ciPrefix "Property".toList r).isSome then some (r.take 8)
    else if (ciPrefix "Passenger".toList r).isSome then some (r.take 9)
    else if (ciPrefix "HHG".toList r).isSome then some (r.take 3)
    else none

/-- Search loop for the authority-type regex. -/
def authTypeGo : Nat → List Char → Option (List Char)
  | 0, _ => none
  | _ + 1, [] => none
  | fuel + 1, c :: cs =>
    match authTypeAt (c :: cs) with
    | some cap => some cap
    | none => authTypeGo fuel cs

/-- authStatusText.match(/AUTHORIZED FOR (Property|Passenger|HHG)/i). -/
def authTypeSearch (s : String) : Option String :=
  (authTypeGo s.toList.length s.toList).map String.mk

/- ---- the deep-fetch email chain and the filter stages -/

/-- Outcome oracle for the network: for each URL, the result the
    fetchRetry(url, MAX_RETRIES, FETCH_TIMEOUT_MS, ...) call would produce —
    ok body, or error for a throw after exhausting retries. -/
abbrev FetchOracle := String → Except String String

/-
  Host URL resolution is modelled as resolve : String → String → Option String,
  the outcome of new URL(href, base).href: some of the resolved absolute URL,
  or none when the host constructor throws a TypeError (for instance on an
  unclosed IPv6 bracket in the href).  The two source variants guard this call
  differently, which is the one behavioural difference between their
  pipelines.
-/

/-- absoluteUrl from src/unnamed/part_000:
    try { return new URL(href, base).href } catch { return href } — total even
    when the host resolver throws. -/
def absoluteUrl (resolve : String → String → Option String) (base href : String) : String :=
  (resolve base href).getD href

namespace Part000

/-- The email-recovery chain of extractAllData in src/unnamed/part_000
    (lines 130-148): find the cross-reference link, resolve it with
    absoluteUrl (which catches a throwing new URL) and fetch it, find the
    registration link, resolve and fetch it, and take the first email-pattern
    match.  A missing link or no email match leaves the email empty; a fetch
    error is caught (logged) and also leaves it empty.  Total: no failure in
    this chain escapes. -/
def deepFetchEmail (resolve : String → String → Option String) (oracle : FetchOracle)
    (url html : String) : String :=
  match smsLinkMatch html with
  | none => ""
  | some href =>
    let smsLink := absoluteUrl resolve url href
    match oracle smsLink with
    | Except.error _ => ""
    | Except.ok smsHtml =>
      match regLinkMatch smsHtml with
      | none => ""
      | some href2 =>
        let regLink := absoluteUrl resolve smsLink href2
        match oracle regLink with
        | Except.error _ => ""
        | Except.ok regHtml =>
          match emailSearch regHtml with
          | some e => e
          | none => ""

end Part000

namespace Extractor

/-- The email-recovery chain of extractAllData in src/extractor.js
    (lines 162-180).  Same steps as part_000's, with one crucial difference:
    the first hop's new URL(smsLinkMatch[1], url) (line 165) sits OUTSIDE the
    try block, so when the host resolver throws, the exception escapes
    extractAllData — modelled as none.  The second hop's new URL (line 171)
    is inside the try: a throw there is caught and degrades to no email.
    Every caught failure (fetch error on either hop, missing registration
    link, no email match) yields some "". -/
def deepFetchEmail (resolve : String → String → Option String) (oracle : FetchOracle)
    (url html : String) : Option String :=
  match smsLinkMatch html with
  | none => some ""
  | some href =>
    match resolve url href with
    | none => none
    | some smsLink =>
      match oracle smsLink with
      | Except.error _ => some ""
      | Except.ok smsHtml =>
        match regLinkMatch smsHtml with
        | none => some ""
        | some href2 =>
          match resolve smsLink href2 with
          | none => some ""
          | some regLink =>
            match oracle regLink with
            | Except.error _ => some ""
            | Except.ok regHtml =>
              match emailSearch regHtml with
              | some e => some e
              | none => some ""

end Extractor

/-- Existence stage: the page must not contain 'RECORD NOT FOUND' or
    'RECORD INACTIVE' (checked on the uppercased page). -/
def existencePass (html : String) : Bool :=
  !(includes (jsToUpper html) "RECORD NOT FOUND" || includes (jsToUpper html) "RECORD INACTIVE")

/-- Authorization stage: the uppercased extracted authority-status field must
    not contain 'NOT AUTHORIZED' and must contain 'AUTHORIZED'. -/
def authPass (html : String) : Bool :=
  let authStatusText := jsToUpper (extractDataByHeader html "Operating Authority Status:")
  !(includes authStatusText "NOT AUTHORIZED" || !includes authStatusText "AUTHORIZED")

/-- Minimum-age stage on the extracted MCS-150 Form Date field. -/
def agePassHtml (today : Int) (html : String) : Bool :=
  agePassStr today (extractDataByHeader html "MCS-150 Form Date:")

/-- Minimum fleet-size stage on the extracted Power Units field. -/
def puPass (html : String) : Bool :=
  numFilterPasses (extractDataByHeader html "Power Units:")

/-- Minimum driver-count stage on the extracted Drivers field. -/
def drvPass (html : String) : Bool :=
  numFilterPasses (extractDataByHeader html "Drivers:")

/-- The full eligibility chain of handleMC, in source order. -/
def allFiltersPass (today : Int) (html : String) : Bool :=
  existencePass html && authPass html && agePassHtml today html && puPass html && drvPass html

/-- JS Array.prototype.join(', '). -/
def joinCommaSpace : List String → String
  | [] => ""
  | [x] => x
  | x :: xs => x ++ ", " ++ joinCommaSpace xs

namespace Extractor

/-- The row object built by extractAllData in src/extractor.js (the CSV header
    set of that variant). -/
structure Row where
  MC_Number : String
  USDOT_Number : String
  Legal_Name : String
  City : String
  State : String
  Status : String
  Authority_Type : String
  Power_Units : String
  Drivers : String
  Cargo_Carried : String
  Phone : String
  Email : String
  Operation_Type : String
  Entity_Type : String
  Script_Output : String
deriving DecidableEq

/-- extractAllData from src/extractor.js.  All fields but Email are computed
    from the snapshot page; Email comes from the deep-fetch chain.  When the
    chain's unguarded new URL call throws (deepFetchEmail gives none), the
    exception escapes before the row object is built — modelled as none. -/
def extractAllData (resolve : String → String → Option String) (oracle : FetchOracle)
    (url html : String) : Option Row :=
  let legalName := extractDataByHeader html "Legal Name:"
  let usdotNumber := extractDataByHeader html "USDOT Number:"
  let phone := extractDataByHeader html "Phone:"
  let entityType := extractDataByHeader html "Entity Type:"
  let powerUnits := extractDataByHeader html "Power Units:"
  let drivers := extractDataByHeader html "Drivers:"
  let usdotStatus := extractDataByHeader html "USDOT Status:"
  let authStatusText := extractDataByHeader html "Operating Authority Status:"
  let status :=
    if includes (jsToUpper usdotStatus) "ACTIVE" && includes (jsToUpper authStatusText) "AUTHORIZED"
    then "Active" else "Inactive"
  let mcNumber := (mcNumberSearch 9 html).getD ""
  let physicalAddress := extractDataByHeader html "Physical Address:"
  let addr := parseAddress physicalAddress
  let authorityType := (authTypeSearch authStatusText).getD ""
  let operationTypes := getXMarkedItems html "Carrier Operation:"
  let cargoCarried := getXMarkedItems html "Cargo Carried:"
  match deepFetchEmail resolve oracle url html with
  | none => none
  | some email =>
    some
      { MC_Number := mcNumber
        USDOT_Number := usdotNumber
        Legal_Name := legalName
        City := addr.city
        State := addr.state
        Status := status
        Authority_Type := authorityType
        Power_Units := powerUnits
        Drivers := drivers
        Cargo_Carried := joinCommaSpace cargoCarried
        Phone := phone
        Email := email
        Operation_Type := joinCommaSpace operationTypes
        Entity_Type := entityType
        Script_Output := "" }

/-- The per-identifier outcome of handleMC in src/extractor.js: valid, plus
    the row when one was built. -/
structure HandleResult where
  valid : Bool
  row : Option Row
deriving DecidableEq

/-- handleMC from src/extractor.js: fetch the snapshot, then the five
    eligibility stages in source order, each returning { valid: false } on
    failure; only after all five does extractAllData build the row.  The
    outer catch absorbs both a fetchRetry throw and the TypeError escaping
    extractAllData's unguarded new URL call, yielding { valid: false } for
    either. -/
def handleMC (resolve : String → String → Option String) (oracle : FetchOracle)
    (today : Int) (mc : String) : HandleResult :=
  let url := mcToSnapshotUrl mc
  match oracle url with
  | Except.error _ => ⟨false, none⟩
  | Except.ok html =>
    if !existencePass html then ⟨false, none⟩
    else if !authPass html then ⟨false, none⟩
    else if !agePassHtml today html then ⟨false, none⟩
    else if !puPass html then ⟨false, none⟩
    else if !drvPass html then ⟨false, none⟩
    else
      match extractAllData resolve oracle url html with
      | none => ⟨false, none⟩
      | some row => ⟨true, some row⟩

end Extractor

namespace Part000

/-- The row object built by extractAllData in src/unnamed/part_000. -/
structure Row where
  entityType : String
  legalName : String
  dbaName : String
  mcNumber : String
  phone : String
  email : String
  physicalAddress : String
  mailingAddress : String
  city : String
  state : String
  zip : String
  operationType : String
  url : String
deriving DecidableEq

/-- extractAllData from src/unnamed/part_000.  Total: its deep-fetch chain
    resolves URLs through absoluteUrl, whose try/catch absorbs a throwing
    host new URL call. -/
def extractAllData (resolve : String → String → Option String) (oracle : FetchOracle)
    (url html : String) : Row :=
  let entityType := extractDataByHeader html "Entity Type:"
  let legalName := extractDataByHeader html "Legal Name:"
  let dbaName := extractDataByHeader html "DBA Name:"
  let physicalAddress := extractDataByHeader html "Physical Address:"
  let mailingAddress := extractDataByHeader html "Mailing Address:"
  let addr := parseAddress (if physicalAddress ≠ "" then physicalAddress else mailingAddress)
  let xMarkedItems := getXMarkedItems html
  let operationType :=
    if xMarkedItems.contains "Auth. For Hire" then "Property"
    else if xMarkedItems.contains "Passengers" then "Passenger"
    else if xMarkedItems.contains "Broker" then "Broker"
    else ""
  let mcNumber :=
    match mcNumberSearch 7 html with
    | some ds => "MC-" ++ ds
    | none => ""
  let phone := extractDataByHeader html "Phone:"
  let email := deepFetchEmail resolve oracle url html
  { entityType := entityType
    legalName := legalName
    dbaName := dbaName
    mcNumber := mcNumber
    phone := phone
    email := email
    physicalAddress := physicalAddress
    mailingAddress := mailingAddress
    city := addr.city
    state := addr.state
    zip := addr.zip
    operationType := operationType
    url := url }

/-- The per-identifier outcome of handleMC in src/unnamed/part_000: valid,
    the accepted source URL, and the row when one was built. -/
structure HandleResult where
  valid : Bool
  url : Option String
  row : Option Row
deriving DecidableEq

/-- handleMC from src/unnamed/part_000: identical filter chain; in MODE
    'urls' it stops after the filters and retains only the URL, otherwise it
    also builds the row. -/
def handleMC (mode : String) (resolve : String → String → Option String) (oracle : FetchOracle)
    (today : Int) (mc : String) : HandleResult :=
  let url := mcToSnapshotUrl mc
  match oracle url with
  | Except.error _ => ⟨false, none, none⟩
  | Except.ok html =>
    if !existencePass html then ⟨false, none, none⟩
    else if !authPass html then ⟨false, none, none⟩
    else if !agePassHtml today html then ⟨false, none, none⟩
    else if !puPass html then ⟨false, none, none⟩
    else if !drvPass html then ⟨false, none, none⟩
    else if mode = "urls" then ⟨true, some url, none⟩
    else ⟨true, some url, some (extractAllData resolve oracle url html)⟩

end Part000

/- ---- CSV serialization (the row writer in run(), identical in both
   variants) and a reader for it -/

/-- String(v).replace(/"/g, '""'): double every embedded double quote. -/
def escQuotes : List Char → List Char
  | [] => []
  | c :: r => if c = '"' then '"' :: '"' :: escQuotes r else c :: escQuotes r

/-- One CSV field as run() emits it: the value (with '' for a falsy value,
    the identity on strings) wrapped in double quotes with embedded quotes
    doubled. -/
def csvField (s : String) : String := "\"" ++ String.mk (escQuotes s.toList) ++ "\""

/-- JS Array.prototype.join(','). -/
def joinComma : List String → String
  | [] => ""
  | [x] => x
  | x :: y :: xs => x ++ "," ++ joinComma (y :: xs)

/-- One CSV data row: headers.map(h => csvField(r[h])).join(','). -/
def csvRow (fields : List String) : String := joinComma (fields.map csvField)

/-- Read a quoted CSV field body (input starts after the opening quote),
    honouring the doubled-quote escape; on success, the field content and the
    input after the closing quote. -/
def readQuoted : List Char → Option (List Char × List Char)
  | [] => none
  | c :: r =>
    if c = '"' then
      match r with
      | c2 :: r2 =>
        if c2 = '"' then (readQuoted r2).map (fun p => ('"' :: p.1, p.2))
        else some ([], r)
      | [] => some ([], [])
    else (readQuoted r).map (fun p => (c :: p.1, p.2))

/-- Field-by-field reader for one CSV row in the writer's format: a quoted
    field, then either the end of the row or a comma and further fields.  The
    fuel bounds the number of fields; parseCsvRow supplies enough for any
    input. -/
def parseRowGo : Nat → List Char → Option (List String)
  | 0, _ => none
  | fuel + 1, l =>
    match l with
    | '"' :: r =>
      match readQuoted r with
      | none => none
      | some (f, rest) =>
        match rest with
        | [] => some [String.mk f]
        | ',' :: r2 => (parseRowGo fuel r2).map (fun fs => String.mk f :: fs)
        | _ => none
    | _ => none

/-- Parse one CSV row back into its fields, respecting the quote-doubling
    convention. -/
def parseCsvRow (s : String) : Option (List String) :=
  parseRowGo (s.toList.length + 1) s.toList

namespace Extractor

/-- The header order of the CSV writer in src/extractor.js run(). -/
def rowFields (r : Row) : List String :=
  [r.MC_Number, r.USDOT_Number, r.Legal_Name, r.City, r.State, r.Status,
    r.Authority_Type, r.Power_Units, r.Drivers, r.Cargo_Carried, r.Phone,
    r.Email, r.Operation_Type, r.Entity_Type, r.Script_Output]

/-- The CSV data row run() writes for one record. -/
def serializeCsvRow (r : Row) : String := csvRow (rowFields r)

end Extractor

namespace Part000

/-- The header order of the CSV writer in src/unnamed/part_000 run(). -/
def rowFields (r : Row) : List String :=
  [r.mcNumber, r.legalName, r.dbaName, r.entityType, r.operationType, r.phone,
    r.email, r.physicalAddress, r.mailingAddress, r.city, r.state, r.zip, r.url]

/-- The CSV data row run() writes for one record. -/
def serializeCsvRow (r : Row) : String := csvRow (rowFields r)

end Part000

/- ---- concrete fixtures used to exercise the pipeline end to end -/

/-- A minimal accepting snapshot page: authorized, 200+ days old at
    sampleToday, five power units, three drivers, no markers, no
    cross-reference link. -/
def samplePage : String :=
  ">Operating Authority Status:</a></th><td>AUTHORIZED FOR Property</td>" ++
  ">MCS-150 Form Date:</a></th><td>01/01/2020</td>" ++
  ">Power Units:</a></th><td>5</td>" ++
  ">Drivers:</a></th><td>3</td>"

/-- samplePage with the registration-form date replaced by a non-empty string
    that is not a calendar date. -/
def pageBadDate : String :=
  ">Operating Authority Status:</a></th><td>AUTHORIZED FOR Property</td>" ++
  ">MCS-150 Form Date:</a></th><td>PENDING</td>" ++
  ">Power Units:</a></th><td>5</td>" ++
  ">Drivers:</a></th><td>3</td>"

/-- A snapshot page carrying the not-found marker. -/
def pageNotFound : String := "<p>RECORD NOT FOUND</p>"

/-- A page fragment with one marked row but no section anchor at all. -/
def pageMarkedRow : String :=
  "<td class=\"queryfield\" x>X</td><td><font a>Logs</font></td>"

/-- An oracle serving the given page for the identifier 123 and failing on
    every other URL. -/
def pageOracle (page : String) : FetchOracle :=
  fun u => if u = mcToSnapshotUrl "123" then Except.ok page else Except.error "network down"

/-- Model of URL resolution for concrete runs that never throws. -/
def sampleResolve : String → String → Option String := fun _ href => some href

/-- The accepting sample page extended with a cross-reference link whose href
    contains an unclosed IPv6 bracket: it matches the /SMS/ link pattern but
    the host new URL constructor throws on it. -/
def pageBadHref : String :=
  samplePage ++ "<a href=\"https://[/SMS/x\">sms</a>"

/-- Model of URL resolution that throws (none) exactly on the malformed href
    above and resolves every other href to itself. -/
def badResolve : String → String → Option String :=
  fun _ href => if href = "https://[/SMS/x" then none else some href

/-- A current time 200 days after 2020-01-01 (epoch day 18262). -/
def sampleToday : Int := (18262 + 200) * 86400000

end Fmcsa

/- ======================================================================
   Theorems
   ====================================================================== -/

namespace Fmcsa

/- ---- sanity checks: the string machinery evaluates as the source does -/

example : htmlToText "<b> Hello &amp;<br/>World </b>" = "Hello &, World" := by rfl

example :
    extractDataByHeader ">Power Units:</a></th><td>5</td>" "Power Units:" = "5" := by rfl

example :
    extractDataByHeader "<th><a>Legal Name:</a></th> <td class=\"q\"> ACME <b>X</b> </td>"
      "Legal Name:" = "ACME X" := by rfl

example : extractDataByHeader "nothing here" "Legal Name:" = "" := by rfl

example :
    Part000.parseAddress "123 MAIN ST, SPRINGFIELD, IL 62704" =
      ⟨"SPRINGFIELD", "IL", "62704"⟩ := by rfl

example :
    Part000.parseAddress "PO BOX 1, AUSTIN, TX 73301-0001" =
      ⟨"AUSTIN", "TX", "73301-0001"⟩ := by rfl

example : Extractor.parseAddress "X, Some City, hello world" = ⟨"Some City", "hello"⟩ := by rfl

example : Extractor.parseAddress "nocomma" = ⟨"", ""⟩ := by rfl

set_option maxRecDepth 4000 in
example :
    Part000.getXMarkedItems
      "<td class=\"queryfield\" x>X</td> <td><font a>Gen Freight</font></td><td class=\"queryfield\">X</td><td><font b>Gen Freight</font></td>" =
      ["Gen Freight"] := by rfl

example :
    Extractor.getXMarkedItems
      "Cargo Carried:</a></td><table q><td class=\"queryfield\" x>X</td><td><font a>Logs</font></td></table>"
      "Cargo Carried:" = ["Logs"] := by rfl

example : jsNumber "1000" = some ⟨1000, 0⟩ := by rfl

example : jsNumber " 2.5 " = some ⟨25, 1⟩ := by rfl

example : jsParseDate "01/15/2020" = some (18276 * 86400000) := by rfl

example : jsParseDate "2/30/2020" = none := by rfl

example : jsParseDate "2/29/2020" = some (18321 * 86400000) := by rfl

example : mcToSnapshotUrl "MC 123" =
    "https://safer.fmcsa.dot.gov/query.asp?searchtype=ANY&query_type=queryCarrierSnapshot&query_param=MC_MX&query_string=MC123" := by rfl

set_option maxRecDepth 100000 in
example : allFiltersPass sampleToday samplePage = true := by rfl

set_option maxRecDepth 100000 in
example : (Extractor.handleMC sampleResolve (pageOracle samplePage) sampleToday "123").valid = true := by rfl

set_option maxRecDepth 100000 in
example :
    (Extractor.handleMC sampleResolve (pageOracle samplePage) (18262 * 86400000) "123").valid = false := by
  rfl

/- ---- the CSV writer and reader -/

theorem readQuoted_qq (r2 : List Char) :
    readQuoted ('"' :: '"' :: r2) = (readQuoted r2).map (fun p => ('"' :: p.1, p.2)) := rfl

theorem readQuoted_q_nil : readQuoted ['"'] = some ([], []) := rfl

theorem readQuoted_q_other (c2 : Char) (r2 : List Char) (hc2 : c2 ≠ '"') :
    readQuoted ('"' :: c2 :: r2) = some ([], c2 :: r2) := by
  rw [readQuoted.eq_def]
  simp only [if_neg hc2, if_pos rfl]
  simp

theorem readQuoted_other (c : Char) (r : List Char) (hc : c ≠ '"') :
    readQuoted (c :: r) = (readQuoted r).map (fun p => (c :: p.1, p.2)) := by
  rw [readQuoted.eq_def]
  simp only [if_neg hc]

theorem readQuoted_escQuotes (f rest : List Char) (hrest : rest.head? ≠ some '"') :
    readQuoted (escQuotes f ++ '"' :: rest) = some (f, rest) := by
  induction f with
  | nil =>
    match rest with
    | [] => simpa [escQuotes] using readQuoted_q_nil
    | c :: cs =>
      have hc : c ≠ '"' := by simpa using hrest
      simpa [escQuotes] using readQuoted_q_other c cs hc
  | cons a f ih =>
    by_cases ha : a = '"'
    · subst ha
      have he : escQuotes ('"' :: f) ++ '"' :: rest = '"' :: '"' :: (escQuotes f ++ '"' :: rest) := by
        simp [escQuotes]
      rw [he, readQuoted_qq, ih]
      simp
    · have he : escQuotes (a :: f) ++ '"' :: rest = a :: (escQuotes f ++ '"' :: rest) := by
        simp [escQuotes, ha]
      rw [he, readQuoted_other a _ ha, ih]
      simp

theorem csvField_toList (f : String) :
    (csvField f).toList = '"' :: (escQuotes f.toList ++ ['"']) := by
  simp [csvField, String.toList, String.data_append]

theorem csvRow_single_toList (f : String) :
    (csvRow [f]).toList = '"' :: (escQuotes f.toList ++ ['"']) := by
  simpa [csvRow, joinComma] using csvField_toList f

theorem csvRow_cons_toList (f g : String) (fs : List String) :
    (csvRow (f :: g :: fs)).toList =
      '"' :: (escQuotes f.toList ++ '"' :: ',' :: (csvRow (g :: fs)).toList) := by
  have h1 : csvRow (f :: g :: fs) = csvField f ++ "," ++ csvRow (g :: fs) := by
    simp [csvRow, joinComma]
  rw [h1]
  simp [String.toList, String.data_append, csvField]

theorem parseRowGo_csvRow : ∀ (fs : List String) (f : String) (fuel : Nat),
    fs.length + 1 ≤ fuel → parseRowGo fuel ((csvRow (f :: fs)).toList) = some (f :: fs) := by
  intro fs
  induction fs with
  | nil =>
    intro f fuel hfuel
    match fuel, hfuel with
    | fuel + 1, _ =>
      rw [csvRow_single_toList]
      have hq := readQuoted_escQuotes f.toList [] (by simp)
      simp only [parseRowGo, hq]
      rfl
  | cons g gs ih =>
    intro f fuel hfuel
    match fuel, hfuel with
    | fuel + 1, hfuel =>
      rw [csvRow_cons_toList]
      have hq := readQuoted_escQuotes f.toList (',' :: (csvRow (g :: gs)).toList) (by simp)
      have hrec := ih g fuel (by simp at hfuel; omega)
      simp only [parseRowGo, hq, hrec, Option.map_some']
      rfl

theorem csvRow_length_ge : ∀ (fs : List String) (f : String),
    fs.length + 2 ≤ ((csvRow (f :: fs)).toList.length + 1) := by
  intro fs
  induction fs with
  | nil =>
    intro f
    rw [csvRow_single_toList]
    simp
  | cons g gs ih =>
    intro f
    rw [csvRow_cons_toList]
    have := ih g
    simp only [List.length_cons, List.length_append] at this ⊢
    omega

/-- Round trip for any non-empty field list in the writer's format. -/
theorem parseCsvRow_csvRow (f : String) (fs : List String) :
    parseCsvRow (csvRow (f :: fs)) = some (f :: fs) := by
  exact parseRowGo_csvRow fs f ((csvRow (f :: fs)).toList.length + 1)
    (by have := csvRow_length_ge fs f; omega)

/- ---- properties of the Set-based deduplication -/

theorem dedupFirstGo_mem : ∀ (l seen : List String) (x : String),
    x ∈ dedupFirstGo seen l ↔ (x ∈ l ∧ x ∉ seen) := by
  intro l
  induction l with
  | nil => intro seen x; simp [dedupFirstGo]
  | cons y ys ih =>
    intro seen x
    by_cases hy : y ∈ seen
    · simp only [dedupFirstGo, if_pos hy, ih, List.mem_cons]
      by_cases hxy : x = y
      · subst hxy; tauto
      · tauto
    · simp only [dedupFirstGo, if_neg hy, List.mem_cons, ih]
      by_cases hxy : x = y
      · subst hxy; tauto
      · tauto

theorem dedupFirstGo_sublist : ∀ (l seen : List String), (dedupFirstGo seen l).Sublist l := by
  intro l
  induction l with
  | nil => intro seen; simp [dedupFirstGo]
  | cons y ys ih =>
    intro seen
    by_cases hy : y ∈ seen
    · simp only [dedupFirstGo, if_pos hy]
      exact (ih seen).trans (List.sublist_cons_self y ys)
    · simp only [dedupFirstGo, if_neg hy]
      exact (ih (y :: seen)).cons₂ y

theorem dedupFirstGo_nodup : ∀ (l seen : List String), (dedupFirstGo seen l).Nodup := by
  intro l
  induction l with
  | nil => intro seen; simp [dedupFirstGo]
  | cons y ys ih =>
    intro seen
    by_cases hy : y ∈ seen
    · simpa [dedupFirstGo, hy] using ih seen
    · simp only [dedupFirstGo, if_neg hy]
      refine List.nodup_cons.mpr ⟨?_, ih (y :: seen)⟩
      intro hmem
      exact ((dedupFirstGo_mem ys (y :: seen) y).mp hmem).2 (by simp)

theorem dedupFirst_nodup (l : List String) : (dedupFirst l).Nodup :=
  dedupFirstGo_nodup l []

theorem dedupFirst_sublist (l : List String) : (dedupFirst l).Sublist l :=
  dedupFirstGo_sublist l []

theorem dedupFirst_mem (l : List String) (x : String) : x ∈ dedupFirst l ↔ x ∈ l := by
  simpa using dedupFirstGo_mem l [] x

/- ---- the numeric filter against the rational value of the parsed number -/

theorem tenPow_pos (n : Nat) : 0 < tenPow n := by
  induction n with
  | zero => simp [tenPow]
  | succ n ih => simp only [tenPow]; omega

theorem JsNum.one_le_val_iff (x : JsNum) : 1 ≤ x.val ↔ (tenPow x.scale : Int) ≤ x.num := by
  unfold JsNum.val
  rw [le_div_iff₀ (by exact_mod_cast tenPow_pos x.scale), one_mul, Int.cast_le]

theorem numFilterPasses_iff (t : String) :
    numFilterPasses t = true ↔
      ∃ x, jsNumber (stripCommas t) = some x ∧ 1 ≤ x.val := by
  cases h : jsNumber (stripCommas t) with
  | none => simp [numFilterPasses, h]
  | some x =>
    simp only [numFilterPasses, h, decide_eq_true_eq, Option.some.injEq]
    constructor
    · intro hle
      exact ⟨x, rfl, (JsNum.one_le_val_iff x).mpr hle⟩
    · rintro ⟨y, rfl, hy⟩
      exact (JsNum.one_le_val_iff x).mp hy

/- ---- characterization of the handleMC control flow -/

theorem extractor_handleMC_ok (resolve : String → String → Option String) (o : FetchOracle)
    (today : Int) (mc html : String) (ho : o (mcToSnapshotUrl mc) = Except.ok html) :
    Extractor.handleMC resolve o today mc =
      (if allFiltersPass today html then
        (match Extractor.extractAllData resolve o (mcToSnapshotUrl mc) html with
         | none => ⟨false, none⟩
         | some row => ⟨true, some row⟩)
      else ⟨false, none⟩) := by
  simp only [Extractor.handleMC, ho, allFiltersPass]
  by_cases h1 : existencePass html <;> by_cases h2 : authPass html <;>
    by_cases h3 : agePassHtml today html <;> by_cases h4 : puPass html <;>
      by_cases h5 : drvPass html <;> simp [h1, h2, h3, h4, h5]

theorem extractor_handleMC_err (resolve : String → String → Option String) (o : FetchOracle)
    (today : Int) (mc e : String) (ho : o (mcToSnapshotUrl mc) = Except.error e) :
    Extractor.handleMC resolve o today mc = ⟨false, none⟩ := by
  simp only [Extractor.handleMC, ho]

theorem part000_handleMC_ok (mode : String) (resolve : String → String → Option String)
    (o : FetchOracle) (today : Int) (mc html : String)
    (ho : o (mcToSnapshotUrl mc) = Except.ok html) :
    Part000.handleMC mode resolve o today mc =
      (if allFiltersPass today html then
        (if mode = "urls" then ⟨true, some (mcToSnapshotUrl mc), none⟩
         else
          ⟨true, some (mcToSnapshotUrl mc),
            some (Part000.extractAllData resolve o (mcToSnapshotUrl mc) html)⟩)
      else ⟨false, none, none⟩) := by
  simp only [Part000.handleMC, ho, allFiltersPass]
  by_cases h1 : existencePass html <;> by_cases h2 : authPass html <;>
    by_cases h3 : agePassHtml today html <;> by_cases h4 : puPass html <;>
      by_cases h5 : drvPass html <;> simp [h1, h2, h3, h4, h5]

theorem part000_handleMC_err (mode : String) (resolve : String → String → Option String)
    (o : FetchOracle) (today : Int) (mc e : String)
    (ho : o (mcToSnapshotUrl mc) = Except.error e) :
    Part000.handleMC mode resolve o today mc = ⟨false, none, none⟩ := by
  simp only [Part000.handleMC, ho]

/- ---- the extractor.js deep-fetch chain: where it throws and where it is
   caught -/

theorem extractor_dfe_noLink (resolve : String → String → Option String) (o : FetchOracle)
    (url html : String) (h1 : smsLinkMatch html = none) :
    Extractor.deepFetchEmail resolve o url html = some "" := by
  simp only [Extractor.deepFetchEmail, h1]

theorem extractor_dfe_throw (resolve : String → String → Option String) (o : FetchOracle)
    (url html href : String) (h1 : smsLinkMatch html = some href)
    (h2 : resolve url href = none) :
    Extractor.deepFetchEmail resolve o url html = none := by
  simp only [Extractor.deepFetchEmail, h1, h2]

theorem extractor_dfe_isSome (resolve : String → String → Option String) (o : FetchOracle)
    (url html href smsLink : String) (h1 : smsLinkMatch html = some href)
    (h2 : resolve url href = some smsLink) :
    (Extractor.deepFetchEmail resolve o url html).isSome = true := by
  simp only [Extractor.deepFetchEmail, h1, h2]
  cases o smsLink with
  | error e => rfl
  | ok smsHtml =>
    dsimp only []
    cases regLinkMatch smsHtml with
    | none => rfl
    | some href2 =>
      dsimp only []
      cases resolve smsLink href2 with
      | none => rfl
      | some regLink =>
        dsimp only []
        cases o regLink with
        | error e => rfl
        | ok regHtml =>
          dsimp only []
          cases emailSearch regHtml <;> rfl

theorem extractor_dfe_isSome_eq (resolve : String → String → Option String)
    (o o2 : FetchOracle) (url html : String) :
    (Extractor.deepFetchEmail resolve o url html).isSome =
      (Extractor.deepFetchEmail resolve o2 url html).isSome := by
  cases h1 : smsLinkMatch html with
  | none =>
    rw [extractor_dfe_noLink resolve o url html h1, extractor_dfe_noLink resolve o2 url html h1]
  | some href =>
    cases h2 : resolve url href with
    | none =>
      rw [extractor_dfe_throw resolve o url html href h1 h2,
        extractor_dfe_throw resolve o2 url html href h1 h2]
    | some smsLink =>
      rw [extractor_dfe_isSome resolve o url html href smsLink h1 h2,
        extractor_dfe_isSome resolve o2 url html href smsLink h1 h2]

theorem extractor_extractAllData_none_iff (resolve : String → String → Option String)
    (o : FetchOracle) (url html : String) :
    Extractor.extractAllData resolve o url html = none ↔
      Extractor.deepFetchEmail resolve o url html = none := by
  unfold Extractor.extractAllData
  cases hd : Extractor.deepFetchEmail resolve o url html with
  | none => simp
  | some em => simp

theorem extractor_extractAllData_isSome_eq (resolve : String → String → Option String)
    (o o2 : FetchOracle) (url html : String) :
    (Extractor.extractAllData resolve o url html).isSome =
      (Extractor.extractAllData resolve o2 url html).isSome := by
  have h := extractor_dfe_isSome_eq resolve o o2 url html
  unfold Extractor.extractAllData
  cases hd : Extractor.deepFetchEmail resolve o url html with
  | none =>
    rw [hd] at h
    cases hd2 : Extractor.deepFetchEmail resolve o2 url html with
    | none => simp
    | some em2 => rw [hd2] at h; simp at h
  | some em =>
    rw [hd] at h
    cases hd2 : Extractor.deepFetchEmail resolve o2 url html with
    | none => rw [hd2] at h; simp at h
    | some em2 => simp

/- ---- the retry loop -/

theorem range_map_backoff (i k : Nat) :
    (List.range (k + 1)).map (fun m => BACKOFF_BASE_MS * 2 ^ (i + m)) =
      BACKOFF_BASE_MS * 2 ^ i ::
        (List.range k).map (fun m => BACKOFF_BASE_MS * 2 ^ (i + 1 + m)) := by
  rw [List.range_succ_eq_map, List.map_cons, List.map_map]
  refine congrArg₂ _ (by rw [Nat.add_zero]) ?_
  refine List.map_congr_left ?_
  intro m _
  simp only [Function.comp_apply]
  congr 2
  omega

theorem fetchRetryGo_allFail (attempt : Nat → Except String String) (label : String)
    (tries : Nat) :
    ∀ (k i : Nat) (lastErr : Option String) (waits : List Nat),
      (∀ m, m < k → ∃ e, attempt (i + m) = Except.error e) →
      (fetchRetryGo attempt label tries i k lastErr waits).attemptsMade = i + k ∧
      (fetchRetryGo attempt label tries i k lastErr waits).waits =
        waits ++ (List.range k).map (fun m => BACKOFF_BASE_MS * 2 ^ (i + m)) ∧
      (∀ e, 0 < k → attempt (i + (k - 1)) = Except.error e →
        (fetchRetryGo attempt label tries i k lastErr waits).result = Except.error e) := by
  intro k
  induction k with
  | zero =>
    intro i lastErr waits _
    exact ⟨rfl, by simp [fetchRetryGo], fun e h0 => absurd h0 (by omega)⟩
  | succ k ih =>
    intro i lastErr waits hfail
    obtain ⟨e0, he0⟩ := hfail 0 (by omega)
    rw [Nat.add_zero] at he0
    have hstep : fetchRetryGo attempt label tries i (k + 1) lastErr waits =
        fetchRetryGo attempt label tries (i + 1) k (some e0)
          (waits ++ [BACKOFF_BASE_MS * 2 ^ i]) := by
      simp only [fetchRetryGo, he0]
    have hfail2 : ∀ m, m < k → ∃ e, attempt (i + 1 + m) = Except.error e := by
      intro m hm
      obtain ⟨e, he⟩ := hfail (m + 1) (by omega)
      exact ⟨e, by rw [show i + 1 + m = i + (m + 1) by omega]; exact he⟩
    obtain ⟨ha, hw, hr⟩ :=
      ih (i + 1) (some e0) (waits ++ [BACKOFF_BASE_MS * 2 ^ i]) hfail2
    refine ⟨?_, ?_, ?_⟩
    · rw [hstep, ha]; omega
    · rw [hstep, hw, List.append_assoc, range_map_backoff]
      rfl
    · intro e _ hlast
      rw [hstep]
      rcases Nat.eq_zero_or_pos k with hk0 | hk
      · subst hk0
        have : e0 = e := by
          rw [show i + (0 + 1 - 1) = i by omega, he0] at hlast
          exact (Except.error.inj hlast)
        subst this
        simp [fetchRetryGo, errOrDefault]
      · exact hr e hk (by rw [show i + 1 + (k - 1) = i + (k + 1 - 1) by omega]; exact hlast)

theorem fetchRetryGo_firstOk (attempt : Nat → Except String String) (label : String)
    (tries : Nat) :
    ∀ (j k i : Nat) (lastErr : Option String) (waits : List Nat) (b : String),
      j < k → attempt (i + j) = Except.ok b →
      (∀ m, m < j → ∃ e, attempt (i + m) = Except.error e) →
      (fetchRetryGo attempt label tries i k lastErr waits).attemptsMade = i + j + 1 ∧
      (fetchRetryGo attempt label tries i k lastErr waits).result = Except.ok b := by
  intro j
  induction j with
  | zero =>
    intro k i lastErr waits b hjk hok _
    match k, hjk with
    | k + 1, _ =>
      rw [Nat.add_zero] at hok
      simp only [fetchRetryGo, hok]
      constructor <;> simp
  | succ j ih =>
    intro k i lastErr waits b hjk hok hfail
    match k, hjk with
    | k + 1, hjk =>
      obtain ⟨e0, he0⟩ := hfail 0 (by omega)
      rw [Nat.add_zero] at he0
      have hstep : fetchRetryGo attempt label tries i (k + 1) lastErr waits =
          fetchRetryGo attempt label tries (i + 1) k (some e0)
            (waits ++ [BACKOFF_BASE_MS * 2 ^ i]) := by
        simp only [fetchRetryGo, he0]
      have h1 : attempt (i + 1 + j) = Except.ok b := by
        rw [show i + 1 + j = i + (j + 1) by omega]; exact hok
      have h2 : ∀ m, m < j → ∃ e, attempt (i + 1 + m) = Except.error e := by
        intro m hm
        obtain ⟨e, he⟩ := hfail (m + 1) (by omega)
        exact ⟨e, by rw [show i + 1 + m = i + (m + 1) by omega]; exact he⟩
      obtain ⟨ha, hr⟩ :=
        ih k (i + 1) (some e0) (waits ++ [BACKOFF_BASE_MS * 2 ^ i]) b (by omega) h1 h2
      rw [hstep]
      exact ⟨by rw [ha]; omega, hr⟩

/- ======================================================================
   Claims
   ====================================================================== -/

/-- C1: for every Identifier whose snapshot page contains a not-found or
    record-inactive marker, or whose extracted operating-authority field
    contains the not-authorized marker, both pipeline variants yield a
    rejected outcome and construct no record; more generally, either variant
    constructs a record only when the page has passed every one of the five
    eligibility stages (existence, authorization, minimum age, minimum fleet
    size, minimum driver count). -/
theorem claim_C1 (resolve : String → String → Option String) (o : FetchOracle) (today : Int)
    (mc html : String) (ho : o (mcToSnapshotUrl mc) = Except.ok html) :
    ((includes (jsToUpper html) "RECORD NOT FOUND" = true ∨
      includes (jsToUpper html) "RECORD INACTIVE" = true ∨
      includes (jsToUpper (extractDataByHeader html "Operating Authority Status:"))
        "NOT AUTHORIZED" = true) →
      Extractor.handleMC resolve o today mc = ⟨false, none⟩ ∧
      ∀ mode, Part000.handleMC mode resolve o today mc = ⟨false, none, none⟩) ∧
    (∀ row, (Extractor.handleMC resolve o today mc).row = some row →
      existencePass html = true ∧ authPass html = true ∧ agePassHtml today html = true ∧
      puPass html = true ∧ drvPass html = true) ∧
    (∀ mode row, (Part000.handleMC mode resolve o today mc).row = some row →
      existencePass html = true ∧ authPass html = true ∧ agePassHtml today html = true ∧
      puPass html = true ∧ drvPass html = true) := by
  refine ⟨?_, ?_, ?_⟩
  · intro hmark
    have hfail : allFiltersPass today html = false := by
      rcases hmark with h | h | h
      · simp [allFiltersPass, existencePass, h]
      · simp [allFiltersPass, existencePass, h]
      · simp [allFiltersPass, authPass, h]
    constructor
    · rw [extractor_handleMC_ok resolve o today mc html ho]
      simp [hfail]
    · intro mode
      rw [part000_handleMC_ok mode resolve o today mc html ho]
      simp [hfail]
  · intro row hrow
    rw [extractor_handleMC_ok resolve o today mc html ho] at hrow
    by_cases hp : allFiltersPass today html = true
    · simp only [allFiltersPass, Bool.and_eq_true] at hp
      tauto
    · simp only [Bool.not_eq_true] at hp
      rw [hp] at hrow
      simp at hrow
  · intro mode row hrow
    rw [part000_handleMC_ok mode resolve o today mc html ho] at hrow
    by_cases hp : allFiltersPass today html = true
    · simp only [allFiltersPass, Bool.and_eq_true] at hp
      tauto
    · simp only [Bool.not_eq_true] at hp
      rw [hp] at hrow
      simp at hrow

set_option maxRecDepth 400000 in
/-- C1 witness: the not-found page is rejected with no record by both
    variants, and the accepting sample page passes all five stages. -/
theorem claim_C1_witness :
    (Extractor.handleMC sampleResolve (pageOracle pageNotFound) sampleToday "123" =
        ⟨false, none⟩ ∧
      Part000.handleMC "full" sampleResolve (pageOracle pageNotFound) sampleToday "123" =
        ⟨false, none, none⟩) ∧
    (existencePass samplePage = true ∧ authPass samplePage = true ∧
      agePassHtml sampleToday samplePage = true ∧ puPass samplePage = true ∧
      drvPass samplePage = true) := by
  constructor
  · have h :=
      (claim_C1 sampleResolve (pageOracle pageNotFound) sampleToday "123" pageNotFound
        (by rfl)).1 (Or.inl (by rfl))
    exact ⟨h.1, h.2 "full"⟩
  · exact
      (claim_C1 sampleResolve (pageOracle samplePage) sampleToday "123" samplePage (by rfl)).2.1
        _ (by rfl)

set_option maxRecDepth 400000 in
/-- C2 counterexample: a snapshot page whose registration-form date field is
    the non-empty, unparseable string PENDING passes the minimum-age filter
    and the whole pipeline accepts the record — the claim says a missing or
    unparseable date is always rejected. -/
theorem claim_C2_counterexample :
    extractDataByHeader pageBadDate "MCS-150 Form Date:" = "PENDING" ∧
    jsParseDate "PENDING" = none ∧
    agePassStr sampleToday "PENDING" = true ∧
    (Extractor.handleMC sampleResolve (pageOracle pageBadDate) sampleToday "123").valid =
      true := by
  exact ⟨rfl, rfl, rfl, rfl⟩

/-- C2 (amended): for a parseable registration-form date the minimum-age
    filter passes exactly when ceil(|today - formDate| / msPerDay) is at least
    MIN_AGE_DAYS; in particular, at a whole-day age of exactly MIN_AGE_DAYS
    the record is accepted and at MIN_AGE_DAYS - 1 it is rejected; a missing
    (empty) date is always rejected; but an unparseable non-empty date passes
    the filter (the NaN comparison in the source is false, so the skip branch
    is not taken). -/
theorem claim_C2_amended (today : Int) (dateStr : String) :
    (∀ t, jsParseDate dateStr = some t →
      (agePassStr today dateStr = true ↔ MIN_AGE_DAYS ≤ ceilDays (today - t).natAbs)) ∧
    (∀ d : Int, jsParseDate dateStr = some (d * (msPerDay : Int)) →
      agePassStr (d * (msPerDay : Int) + (MIN_AGE_DAYS : Int) * (msPerDay : Int))
          dateStr = true ∧
      agePassStr (d * (msPerDay : Int) + ((MIN_AGE_DAYS : Int) - 1) * (msPerDay : Int))
          dateStr = false) ∧
    agePassStr today "" = false ∧
    (dateStr ≠ "" → jsParseDate dateStr = none → agePassStr today dateStr = true) := by
  have hne : ∀ t, jsParseDate dateStr = some t → dateStr ≠ "" := by
    intro t ht he
    subst he
    simp [jsParseDate, jsTrim, trimList, jsSplitChar, splitCharGo] at ht
  refine ⟨?_, ?_, ?_, ?_⟩
  · intro t ht
    simp only [agePassStr, if_neg (hne t ht), ht, Bool.not_eq_eq_eq_not, Bool.not_true,
      decide_eq_false_iff_not, Nat.not_lt]
  · intro d hd
    have key : ∀ today2 : Int,
        agePassStr today2 dateStr =
          !decide (ceilDays (today2 - d * (msPerDay : Int)).natAbs < MIN_AGE_DAYS) := by
      intro today2
      simp only [agePassStr, if_neg (hne _ hd), hd]
    constructor
    · rw [key]
      have harith : d * (msPerDay : Int) + (MIN_AGE_DAYS : Int) * (msPerDay : Int) -
          d * (msPerDay : Int) = (15552000000 : Int) := by
        simp only [msPerDay, MIN_AGE_DAYS]
        omega
      rw [harith]
      decide
    · rw [key]
      have harith : d * (msPerDay : Int) + ((MIN_AGE_DAYS : Int) - 1) * (msPerDay : Int) -
          d * (msPerDay : Int) = (15465600000 : Int) := by
        simp only [msPerDay, MIN_AGE_DAYS]
        omega
      rw [harith]
      decide
  · rfl
  · intro hne2 hnone
    simp [agePassStr, if_neg hne2, hnone]

/-- C2 witness: the amended statement at the concrete date 01/01/2020 (epoch
    day 18262): accepted at exactly 180 whole days of age, rejected at 179,
    rejected when missing, passed when unparseable. -/
theorem claim_C2_witness :
    agePassStr ((18262 : Int) * (msPerDay : Int) + (MIN_AGE_DAYS : Int) * (msPerDay : Int))
        "01/01/2020" = true ∧
    agePassStr ((18262 : Int) * (msPerDay : Int) +
        ((MIN_AGE_DAYS : Int) - 1) * (msPerDay : Int)) "01/01/2020" = false ∧
    agePassStr 0 "" = false ∧
    agePassStr 0 "PENDING" = true := by
  have h2 := (claim_C2_amended 0 "01/01/2020").2.1 18262 (by rfl)
  have h3 := (claim_C2_amended 0 "").2.2.1
  have h4 := (claim_C2_amended 0 "PENDING").2.2.2 (by decide) (by rfl)
  exact ⟨h2.1, h2.2, h3, h4⟩

/-- C3: on sustained failure fetchRetry makes exactly tries attempts, sleeps
    BACKOFF_BASE_MS * 2^i after the zero-based i-th failed attempt, and the
    thrown error is the last underlying error; when an attempt succeeds, the
    first successful body is returned after exactly that many attempts and no
    further attempt is made. -/
theorem claim_C3 (attempt : Nat → Except String String) (tries : Nat) (label : String) :
    ((∀ i, i < tries → ∃ e, attempt i = Except.error e) →
      (fetchRetry attempt tries label).attemptsMade = tries ∧
      (fetchRetry attempt tries label).waits =
        (List.range tries).map (fun i => BACKOFF_BASE_MS * 2 ^ i) ∧
      (∀ e, 0 < tries → attempt (tries - 1) = Except.error e →
        (fetchRetry attempt tries label).result = Except.error e)) ∧
    (∀ j b, j < tries → attempt j = Except.ok b →
      (∀ i, i < j → ∃ e, attempt i = Except.error e) →
      (fetchRetry attempt tries label).attemptsMade = j + 1 ∧
      (fetchRetry attempt tries label).result = Except.ok b) := by
  constructor
  · intro hfail
    obtain ⟨ha, hw, hr⟩ := fetchRetryGo_allFail attempt label tries tries 0 none []
      (by intro m hm; simpa using hfail m hm)
    refine ⟨by simpa [fetchRetry] using ha, ?_, ?_⟩
    · rw [fetchRetry]
      rw [hw]
      simp
    · intro e hpos hlast
      have := hr e hpos (by simpa using hlast)
      rw [fetchRetry]
      exact this
  · intro j b hj hok hfail
    obtain ⟨ha, hr⟩ := fetchRetryGo_firstOk attempt label tries j tries 0 none [] b hj
      (by simpa using hok) (by intro m hm; simpa using hfail m hm)
    exact ⟨by simpa [fetchRetry] using ha, by rw [fetchRetry]; exact hr⟩

/-- C3 witness: three failing attempts produce exactly three attempts, the
    waits 2000, 4000, 8000 ms and the last error; a success on the second
    attempt stops the loop with the successful body. -/
theorem claim_C3_witness :
    (fetchRetry (fun i => Except.error (toString i)) 3 "snapshot").attemptsMade = 3 ∧
    (fetchRetry (fun i => Except.error (toString i)) 3 "snapshot").waits =
      [2000, 4000, 8000] ∧
    (fetchRetry (fun i => Except.error (toString i)) 3 "snapshot").result =
      Except.error "2" ∧
    (fetchRetry (fun i => if i = 0 then Except.error "x" else Except.ok "body") 3
        "snapshot").attemptsMade = 2 ∧
    (fetchRetry (fun i => if i = 0 then Except.error "x" else Except.ok "body") 3
        "snapshot").result = Except.ok "body" := by
  have h1 := (claim_C3 (fun i => Except.error (toString i)) 3 "snapshot").1
    (fun i _ => ⟨toString i, rfl⟩)
  have h2 := (claim_C3 (fun i => if i = 0 then Except.error "x" else Except.ok "body") 3
    "snapshot").2 1 "body" (by omega) (by rfl)
    (fun i hi => by
      have h0 : i = 0 := by omega
      exact ⟨"x", by simp [h0]⟩)
  refine ⟨h1.1, ?_, h1.2.2 "2" (by omega) (by rfl), h2.1, h2.2⟩
  rw [h1.2.1]
  rfl

/-- C4: the deep-fetch email chain never touches the rest of the record —
    erasing the email, either variant's extractAllData result is the same for
    any two network oracles; whenever the chain completes (in particular in
    every caught failure mode) the record is built with the chain's email, so
    no such failure aborts the record; each enumerated failure of the chain
    (missing cross-reference link, fetch failure on either hop, missing
    registration link, no email-pattern match) yields the empty email in both
    variants; and the accept/reject verdict of handleMC depends only on the
    snapshot answer, never on the deep-fetch answers. -/
theorem claim_C4 (resolve : String → String → Option String) (o o2 : FetchOracle)
    (url html : String) :
    ((Extractor.extractAllData resolve o url html).map (fun r => { r with Email := "" }) =
      (Extractor.extractAllData resolve o2 url html).map (fun r => { r with Email := "" })) ∧
    (∀ em, Extractor.deepFetchEmail resolve o url html = some em →
      ∃ r, Extractor.extractAllData resolve o url html = some r ∧ r.Email = em) ∧
    (Part000.extractAllData resolve o url html =
      { Part000.extractAllData resolve o2 url html with
          email := Part000.deepFetchEmail resolve o url html }) ∧
    (smsLinkMatch html = none →
      Extractor.deepFetchEmail resolve o url html = some "" ∧
      Part000.deepFetchEmail resolve o url html = "") ∧
    (∀ href smsLink e, smsLinkMatch html = some href → resolve url href = some smsLink →
      o smsLink = Except.error e →
      Extractor.deepFetchEmail resolve o url html = some "") ∧
    (∀ href smsLink smsHtml, smsLinkMatch html = some href →
      resolve url href = some smsLink → o smsLink = Except.ok smsHtml →
      regLinkMatch smsHtml = none →
      Extractor.deepFetchEmail resolve o url html = some "") ∧
    (∀ href smsLink smsHtml href2 regLink e, smsLinkMatch html = some href →
      resolve url href = some smsLink → o smsLink = Except.ok smsHtml →
      regLinkMatch smsHtml = some href2 → resolve smsLink href2 = some regLink →
      o regLink = Except.error e →
      Extractor.deepFetchEmail resolve o url html = some "") ∧
    (∀ href smsLink smsHtml href2 regLink regHtml, smsLinkMatch html = some href →
      resolve url href = some smsLink → o smsLink = Except.ok smsHtml →
      regLinkMatch smsHtml = some href2 → resolve smsLink href2 = some regLink →
      o regLink = Except.ok regHtml → emailSearch regHtml = none →
      Extractor.deepFetchEmail resolve o url html = some "") ∧
    (∀ href e, smsLinkMatch html = some href →
      o (absoluteUrl resolve url href) = Except.error e →
      Part000.deepFetchEmail resolve o url html = "") ∧
    (∀ href smsHtml, smsLinkMatch html = some href →
      o (absoluteUrl resolve url href) = Except.ok smsHtml →
      regLinkMatch smsHtml = none →
      Part000.deepFetchEmail resolve o url html = "") ∧
    (∀ href smsHtml href2 e, smsLinkMatch html = some href →
      o (absoluteUrl resolve url href) = Except.ok smsHtml →
      regLinkMatch smsHtml = some href2 →
      o (absoluteUrl resolve (absoluteUrl resolve url href) href2) = Except.error e →
      Part000.deepFetchEmail resolve o url html = "") ∧
    (∀ href smsHtml href2 regHtml, smsLinkMatch html = some href →
      o (absoluteUrl resolve url href) = Except.ok smsHtml →
      regLinkMatch smsHtml = some href2 →
      o (absoluteUrl resolve (absoluteUrl resolve url href) href2) = Except.ok regHtml →
      emailSearch regHtml = none →
      Part000.deepFetchEmail resolve o url html = "") ∧
    (∀ today mc, o (mcToSnapshotUrl mc) = o2 (mcToSnapshotUrl mc) →
      (Extractor.handleMC resolve o today mc).valid =
        (Extractor.handleMC resolve o2 today mc).valid ∧
      ∀ mode, (Part000.handleMC mode resolve o today mc).valid =
        (Part000.handleMC mode resolve o2 today mc).valid) := by
  refine ⟨?_, ?_, rfl, ?_, ?_, ?_, ?_, ?_, ?_, ?_, ?_, ?_, ?_⟩
  · unfold Extractor.extractAllData
    cases h1 : smsLinkMatch html with
    | none =>
      rw [extractor_dfe_noLink resolve o url html h1,
        extractor_dfe_noLink resolve o2 url html h1]
    | some href =>
      cases h2 : resolve url href with
      | none =>
        rw [extractor_dfe_throw resolve o url html href h1 h2,
          extractor_dfe_throw resolve o2 url html href h1 h2]
      | some smsLink =>
        obtain ⟨em1, he1⟩ := Option.isSome_iff_exists.mp
          (extractor_dfe_isSome resolve o url html href smsLink h1 h2)
        obtain ⟨em2, he2⟩ := Option.isSome_iff_exists.mp
          (extractor_dfe_isSome resolve o2 url html href smsLink h1 h2)
        rw [he1, he2]
        rfl
  · intro em hem
    unfold Extractor.extractAllData
    rw [hem]
    exact ⟨_, rfl, rfl⟩
  · intro h
    exact ⟨extractor_dfe_noLink resolve o url html h, by simp [Part000.deepFetchEmail, h]⟩
  · intro href smsLink e h1 h2 h3
    simp [Extractor.deepFetchEmail, h1, h2, h3]
  · intro href smsLink smsHtml h1 h2 h3 h4
    simp [Extractor.deepFetchEmail, h1, h2, h3, h4]
  · intro href smsLink smsHtml href2 regLink e h1 h2 h3 h4 h5 h6
    simp [Extractor.deepFetchEmail, h1, h2, h3, h4, h5, h6]
  · intro href smsLink smsHtml href2 regLink regHtml h1 h2 h3 h4 h5 h6 h7
    simp [Extractor.deepFetchEmail, h1, h2, h3, h4, h5, h6, h7]
  · intro href e h1 h2
    simp [Part000.deepFetchEmail, h1, h2]
  · intro href smsHtml h1 h2 h3
    simp [Part000.deepFetchEmail, h1, h2, h3]
  · intro href smsHtml href2 e h1 h2 h3 h4
    simp [Part000.deepFetchEmail, h1, h2, h3, h4]
  · intro href smsHtml href2 regHtml h1 h2 h3 h4 h5
    simp [Part000.deepFetchEmail, h1, h2, h3, h4, h5]
  · intro today mc hagree
    cases ho2 : o2 (mcToSnapshotUrl mc) with
    | error e =>
      have ho : o (mcToSnapshotUrl mc) = Except.error e := by rw [hagree, ho2]
      rw [extractor_handleMC_err resolve o today mc e ho,
        extractor_handleMC_err resolve o2 today mc e ho2]
      refine ⟨rfl, fun mode => ?_⟩
      rw [part000_handleMC_err mode resolve o today mc e ho,
        part000_handleMC_err mode resolve o2 today mc e ho2]
    | ok html2 =>
      have ho : o (mcToSnapshotUrl mc) = Except.ok html2 := by rw [hagree, ho2]
      constructor
      · rw [extractor_handleMC_ok resolve o today mc html2 ho,
          extractor_handleMC_ok resolve o2 today mc html2 ho2]
        by_cases hp : allFiltersPass today html2 = true
        · have hiso :=
            extractor_extractAllData_isSome_eq resolve o o2 (mcToSnapshotUrl mc) html2
          cases hx : Extractor.extractAllData resolve o (mcToSnapshotUrl mc) html2 with
          | none =>
            cases hy : Extractor.extractAllData resolve o2 (mcToSnapshotUrl mc) html2 with
            | none => simp [hp, hx, hy]
            | some r2 =>
              rw [hx, hy] at hiso
              simp at hiso
          | some r1 =>
            cases hy : Extractor.extractAllData resolve o2 (mcToSnapshotUrl mc) html2 with
            | none =>
              rw [hx, hy] at hiso
              simp at hiso
            | some r2 => simp [hp, hx, hy]
        · simp [hp]
      · intro mode
        rw [part000_handleMC_ok mode resolve o today mc html2 ho,
          part000_handleMC_ok mode resolve o2 today mc html2 ho2]
        by_cases hp : allFiltersPass today html2 = true <;>
          by_cases hm : mode = "urls" <;> simp [hp, hm]

set_option maxRecDepth 400000 in
/-- C4 witness: on the sample page (no cross-reference link) both variants'
    chains yield the empty email, and the verdict is unchanged under an
    oracle that answers differently on every non-snapshot URL. -/
theorem claim_C4_witness :
    Extractor.deepFetchEmail sampleResolve (pageOracle samplePage) (mcToSnapshotUrl "123")
        samplePage = some "" ∧
    Part000.deepFetchEmail sampleResolve (pageOracle samplePage) (mcToSnapshotUrl "123")
        samplePage = "" ∧
    (Extractor.handleMC sampleResolve (pageOracle samplePage) sampleToday "123").valid =
      (Extractor.handleMC sampleResolve
        (fun u => if u = mcToSnapshotUrl "123" then Except.ok samplePage else Except.ok "x")
        sampleToday "123").valid := by
  have h4 := (claim_C4 sampleResolve (pageOracle samplePage) (pageOracle samplePage)
    (mcToSnapshotUrl "123") samplePage).2.2.2.1 (by rfl)
  refine ⟨h4.1, h4.2, ?_⟩
  exact ((claim_C4 sampleResolve (pageOracle samplePage)
    (fun u => if u = mcToSnapshotUrl "123" then Except.ok samplePage else Except.ok "x")
    (mcToSnapshotUrl "123") samplePage).2.2.2.2.2.2.2.2.2.2.2.2 sampleToday "123"
    (by rfl)).1

/-- C5: the fleet-size and driver-count stages accept exactly the field
    values that, after stripping comma separators, convert to a number whose
    value is at least 1; exactly 1 is accepted, 0, negative, unparseable and
    empty values are rejected; and the two stages are this very test applied
    to the extracted Power Units and Drivers fields. -/
theorem claim_C5 :
    (∀ t : String, numFilterPasses t = true ↔
      ∃ x, jsNumber (stripCommas t) = some x ∧ 1 ≤ x.val) ∧
    (∀ html : String,
      puPass html = numFilterPasses (extractDataByHeader html "Power Units:") ∧
      drvPass html = numFilterPasses (extractDataByHeader html "Drivers:")) ∧
    numFilterPasses "1" = true ∧ numFilterPasses "1,000" = true ∧
    numFilterPasses "0" = false ∧ numFilterPasses "-2" = false ∧
    numFilterPasses "abc" = false ∧ numFilterPasses "" = false := by
  exact ⟨numFilterPasses_iff, fun html => ⟨rfl, rfl⟩, rfl, rfl, rfl, rfl, rfl, rfl⟩

set_option maxRecDepth 4000 in
/-- C6 counterexample: for the label Cargo Carried:, a page carrying a marked
    row but no section anchor makes src/extractor.js's getXMarkedItems return
    the empty list, even though the very same page scanned whole (which is
    what the claim's fallback would do, and what part_000's variant does)
    yields the row's label. -/
theorem claim_C6_counterexample :
    Extractor.getXMarkedItems pageMarkedRow "Cargo Carried:" = [] ∧
    Part000.getXMarkedItems pageMarkedRow = ["Logs"] ∧
    xItems pageMarkedRow.toList = ["Logs"] := by
  exact ⟨rfl, rfl, rfl⟩

theorem extractor_getX_fail_other (html hdr : String)
    (h1 : sectionCapture html.toList hdr.toList = none)
    (h2 : includes hdr "Operation Classification" = false) :
    Extractor.getXMarkedItems html hdr = [] := by
  unfold Extractor.getXMarkedItems
  rw [h1]
  simp [Extractor.getXFallback, h2]

theorem extractor_getX_some (html hdr : String) (cap : List Char)
    (h1 : sectionCapture html.toList hdr.toList = some cap) (h2 : cap ≠ []) :
    Extractor.getXMarkedItems html hdr = dedupFirst (xItems cap) := by
  have hc : cap.isEmpty = false := by
    cases cap with
    | nil => exact absurd rfl h2
    | cons a l => rfl
  unfold Extractor.getXMarkedItems
  rw [h1]
  simp [hc]

theorem extractor_getX_fallback_cases (html hdr : String) :
    Extractor.getXFallback html hdr = [] ∨
    ∃ cap, Extractor.getXFallback html hdr = dedupFirst (xItems cap) := by
  unfold Extractor.getXFallback
  split
  · split
    · split
      · exact Or.inl rfl
      · exact Or.inr ⟨_, rfl⟩
    · exact Or.inl rfl
  · exact Or.inl rfl

theorem extractor_getX_cases (html hdr : String) :
    Extractor.getXMarkedItems html hdr = [] ∨
    ∃ cap, Extractor.getXMarkedItems html hdr = dedupFirst (xItems cap) := by
  unfold Extractor.getXMarkedItems
  split
  · split
    · exact extractor_getX_fallback_cases html hdr
    · exact Or.inr ⟨_, rfl⟩
  · exact extractor_getX_fallback_cases html hdr

/-- C6 (amended): both variants return the captured labels deduplicated with
    the first occurrence kept in order (the result is a duplicate-free
    sublist of the raw captures containing exactly its elements); but when
    the section-scoped pattern of src/extractor.js fails, the function does
    not search the whole page: labels without the substring
    'Operation Classification' get the empty list, and labels with it retry
    the same anchored pattern under the header 'Operation Classification:';
    only part_000's variant (which takes no section label) always scans the
    entire page. -/
theorem claim_C6_amended (html hdr : String) :
    (Part000.getXMarkedItems html = dedupFirst (xItems html.toList) ∧
      (Part000.getXMarkedItems html).Nodup ∧
      (Part000.getXMarkedItems html).Sublist (xItems html.toList) ∧
      ∀ x, x ∈ Part000.getXMarkedItems html ↔ x ∈ xItems html.toList) ∧
    (Extractor.getXMarkedItems html hdr).Nodup ∧
    (sectionCapture html.toList hdr.toList = none →
      includes hdr "Operation Classification" = false →
      Extractor.getXMarkedItems html hdr = []) ∧
    (∀ cap, sectionCapture html.toList hdr.toList = some cap → cap ≠ [] →
      Extractor.getXMarkedItems html hdr = dedupFirst (xItems cap) ∧
      (dedupFirst (xItems cap)).Sublist (xItems cap) ∧
      ∀ x, x ∈ dedupFirst (xItems cap) ↔ x ∈ xItems cap) ∧
    (∀ cap2, sectionCapture html.toList hdr.toList = none →
      includes hdr "Operation Classification" = true →
      sectionCapture html.toList "Operation Classification:".toList = some cap2 →
      cap2 ≠ [] →
      Extractor.getXMarkedItems html hdr = dedupFirst (xItems cap2)) := by
  refine ⟨⟨rfl, dedupFirst_nodup _, dedupFirst_sublist _, fun x => dedupFirst_mem _ x⟩,
    ?_, extractor_getX_fail_other html hdr, ?_, ?_⟩
  · rcases extractor_getX_cases html hdr with h | ⟨cap, h⟩
    · rw [h]; exact List.nodup_nil
    · rw [h]; exact dedupFirst_nodup _
  · intro cap h1 h2
    exact ⟨extractor_getX_some html hdr cap h1 h2, dedupFirst_sublist _,
      fun x => dedupFirst_mem _ x⟩
  · intro cap2 h1 h2 h3 h4
    have hc2 : cap2.isEmpty = false := by
      cases cap2 with
      | nil => exact absurd rfl h4
      | cons a l => rfl
    unfold Extractor.getXMarkedItems
    rw [h1]
    show Extractor.getXFallback html hdr = _
    unfold Extractor.getXFallback
    rw [h2, h3]
    simp [hc2]

set_option maxRecDepth 4000 in
/-- C6 witness: the amended statement at a concrete page whose Cargo Carried
    section holds one doubly-listed marked row. -/
theorem claim_C6_witness :
    Extractor.getXMarkedItems
        "Cargo Carried:</a></td><table q><td class=\"queryfield\" x>X</td><td><font a>Logs</font></td></table>"
        "Cargo Carried:" =
      dedupFirst (xItems
        " q><td class=\"queryfield\" x>X</td><td><font a>Logs</font></td>".toList) ∧
    Extractor.getXMarkedItems pageMarkedRow "Cargo Carried:" = [] := by
  constructor
  · exact ((claim_C6_amended
      "Cargo Carried:</a></td><table q><td class=\"queryfield\" x>X</td><td><font a>Logs</font></td></table>"
      "Cargo Carried:").2.2.2.1
        " q><td class=\"queryfield\" x>X</td><td><font a>Logs</font></td>".toList
        (by rfl) (by decide)).1
  · exact (claim_C6_amended pageMarkedRow "Cargo Carried:").2.2.1 (by rfl) (by rfl)

/-- C7 counterexample: on "A, B" the address pattern does not match and the
    string has two comma segments, so the claim's comma-split fallback would
    give (city A, region B, no postal code); part_000's parseAddress has no
    fallback and returns all-empty components (src/extractor.js does apply
    the fallback, showing the decomposition the claim expects). -/
theorem claim_C7_counterexample :
    addrSearch "A, B" = none ∧
    Part000.parseAddress "A, B" = ⟨"", "", ""⟩ ∧
    Extractor.parseAddress "A, B" = ⟨"A", "B"⟩ := by
  exact ⟨rfl, rfl, rfl⟩

/-- C7 (amended): when the pattern <anything>, <two-letter region>,
    <postal code> matches, part_000's parseAddress returns the trimmed
    (city, region, postal code) captures while src/extractor.js's returns
    only (city, region), discarding the captured postal code; when it does
    not match, part_000 returns all-empty (it has no fallback) while
    src/extractor.js with at least two comma segments falls back to the
    second-to-last segment as city and the first whitespace token of the last
    segment as region. -/
theorem claim_C7_amended :
    (∀ s g, addrSearch s = some g →
      Part000.parseAddress s =
        ⟨jsTrim (String.mk g.city), jsTrim (String.mk g.state), jsTrim (String.mk g.zip)⟩ ∧
      Extractor.parseAddress s =
        ⟨jsTrim (String.mk g.city), jsTrim (String.mk g.state)⟩) ∧
    (∀ s, addrSearch s = none → Part000.parseAddress s = ⟨"", "", ""⟩) ∧
    (∀ s, s ≠ "" → addrSearch s = none → 2 ≤ (jsSplitChar ',' s).length →
      Extractor.parseAddress s =
        ⟨jsTrim ((jsSplitChar ',' s).getD ((jsSplitChar ',' s).length - 2) ""),
          (jsSplitWs (jsTrim ((jsSplitChar ',' s).getD ((jsSplitChar ',' s).length - 1)
            ""))).getD 0 ""⟩) := by
  refine ⟨?_, ?_, ?_⟩
  · intro s g hg
    have hs : s ≠ "" := by
      intro he
      subst he
      simp [addrSearch, addrSearchGo] at hg
    constructor
    · simp [Part000.parseAddress, hs, hg]
    · simp [Extractor.parseAddress, hs, hg]
  · intro s h
    unfold Part000.parseAddress
    by_cases hs : s = ""
    · simp [hs]
    · simp [hs, h]
  · intro s hs h hlen
    unfold Extractor.parseAddress
    simp [hs, h, hlen]

/-- C7 witness: the amended statement at a matching address and at the
    fallback-shaped "A, B". -/
theorem claim_C7_witness :
    Part000.parseAddress "123 MAIN ST, SPRINGFIELD, IL 62704" =
      ⟨"SPRINGFIELD", "IL", "62704"⟩ ∧
    Extractor.parseAddress "123 MAIN ST, SPRINGFIELD, IL 62704" = ⟨"SPRINGFIELD", "IL"⟩ ∧
    Part000.parseAddress "A, B" = ⟨"", "", ""⟩ ∧
    Extractor.parseAddress "A, B" = ⟨"A", "B"⟩ := by
  have h1 := claim_C7_amended.1 "123 MAIN ST, SPRINGFIELD, IL 62704"
    ⟨"SPRINGFIELD".toList, "IL".toList, "62704".toList⟩ (by rfl)
  have h2 := claim_C7_amended.2.1 "A, B" (by rfl)
  have h3 := claim_C7_amended.2.2 "A, B" (by decide) (by rfl) (by decide)
  exact ⟨h1.1, h1.2, h2, h3⟩

/-- C8: for an identifier passing every filter, URL-collection mode retains
    only the accepted source URL with no row, its outcome is unchanged under
    any oracle agreeing on the snapshot URL (so neither extraction nor the
    deep-fetch chain contributes), and only full-record mode builds the row
    via extractAllData. -/
theorem claim_C8 (resolve : String → String → Option String) (o : FetchOracle) (today : Int)
    (mc html : String) (ho : o (mcToSnapshotUrl mc) = Except.ok html)
    (hpass : allFiltersPass today html = true) :
    Part000.handleMC "urls" resolve o today mc =
      ⟨true, some (mcToSnapshotUrl mc), none⟩ ∧
    (∀ o2 : FetchOracle, o2 (mcToSnapshotUrl mc) = Except.ok html →
      Part000.handleMC "urls" resolve o2 today mc =
        Part000.handleMC "urls" resolve o today mc) ∧
    Part000.handleMC "full" resolve o today mc =
      ⟨true, some (mcToSnapshotUrl mc),
        some (Part000.extractAllData resolve o (mcToSnapshotUrl mc) html)⟩ := by
  have hurls : ∀ o2 : FetchOracle, o2 (mcToSnapshotUrl mc) = Except.ok html →
      Part000.handleMC "urls" resolve o2 today mc =
        ⟨true, some (mcToSnapshotUrl mc), none⟩ := by
    intro o2 ho2
    rw [part000_handleMC_ok "urls" resolve o2 today mc html ho2]
    simp [hpass]
  refine ⟨hurls o ho, fun o2 ho2 => by rw [hurls o2 ho2, hurls o ho], ?_⟩
  rw [part000_handleMC_ok "full" resolve o today mc html ho]
  simp [hpass]

set_option maxRecDepth 400000 in
/-- C8 witness: on the accepting sample page, urls mode keeps only the URL
    and full mode also builds the row. -/
theorem claim_C8_witness :
    Part000.handleMC "urls" sampleResolve (pageOracle samplePage) sampleToday "123" =
      ⟨true, some (mcToSnapshotUrl "123"), none⟩ ∧
    Part000.handleMC "full" sampleResolve (pageOracle samplePage) sampleToday "123" =
      ⟨true, some (mcToSnapshotUrl "123"),
        some (Part000.extractAllData sampleResolve (pageOracle samplePage)
          (mcToSnapshotUrl "123") samplePage)⟩ := by
  have h := claim_C8 sampleResolve (pageOracle samplePage) sampleToday "123" samplePage
    (by rfl) (by rfl)
  exact ⟨h.1, h.2.2⟩

/-- C9: serializing a record to its CSV row (comma-delimited, every field
    double-quoted with embedded quotes doubled) and parsing the row back
    field-by-field reproduces exactly the record's field values — for both
    variants' schemas. -/
theorem claim_C9 :
    (∀ r : Extractor.Row,
      parseCsvRow (Extractor.serializeCsvRow r) = some (Extractor.rowFields r)) ∧
    (∀ r : Part000.Row,
      parseCsvRow (Part000.serializeCsvRow r) = some (Part000.rowFields r)) := by
  constructor
  · intro r
    unfold Extractor.serializeCsvRow Extractor.rowFields
    exact parseCsvRow_csvRow _ _
  · intro r
    unfold Part000.serializeCsvRow Part000.rowFields
    exact parseCsvRow_csvRow _ _

set_option maxRecDepth 400000 in
/-- C10 counterexample: a snapshot page that passes all five filters and
    carries a cross-reference link whose href the host URL constructor
    rejects (an unclosed IPv6 bracket).  src/extractor.js's unguarded
    new URL(smsLink, url) call throws, the outer catch turns the record into
    { valid: false }, while src/unnamed/part_000's absoluteUrl catches the
    same throw, degrades to no email, and accepts — the two variants'
    verdicts differ on the same page text, refuting the claim. -/
theorem claim_C10_counterexample :
    allFiltersPass sampleToday pageBadHref = true ∧
    (Extractor.handleMC badResolve (pageOracle pageBadHref) sampleToday "123").valid =
      false ∧
    (Part000.handleMC "full" badResolve (pageOracle pageBadHref) sampleToday "123").valid =
      true ∧
    (Part000.handleMC "full" badResolve (pageOracle pageBadHref) sampleToday
        "123").row.isSome = true := by
  exact ⟨rfl, rfl, rfl, rfl⟩

/-- C10 (amended): the two variants produce the same accept/reject verdict —
    both equal to the same eligibility chain — whenever the snapshot fetch
    fails or extractor.js's record construction completes; extractor.js's
    construction aborts exactly when the page has a cross-reference link
    whose unguarded new URL resolution throws, and in that one case (filters
    passing) extractor.js rejects while part_000, whose absoluteUrl catches
    the throw, still accepts. -/
theorem claim_C10_amended (resolve : String → String → Option String) (o : FetchOracle)
    (today : Int) (mc : String) :
    (∀ html, o (mcToSnapshotUrl mc) = Except.ok html →
      (Extractor.extractAllData resolve o (mcToSnapshotUrl mc) html).isSome = true →
      (Extractor.handleMC resolve o today mc).valid = allFiltersPass today html ∧
      (Part000.handleMC "full" resolve o today mc).valid = allFiltersPass today html) ∧
    (∀ e, o (mcToSnapshotUrl mc) = Except.error e →
      (Extractor.handleMC resolve o today mc).valid = false ∧
      (Part000.handleMC "full" resolve o today mc).valid = false) ∧
    (∀ html, o (mcToSnapshotUrl mc) = Except.ok html →
      (Part000.handleMC "full" resolve o today mc).valid = allFiltersPass today html) ∧
    (∀ html, o (mcToSnapshotUrl mc) = Except.ok html →
      allFiltersPass today html = true →
      Extractor.extractAllData resolve o (mcToSnapshotUrl mc) html = none →
      (Extractor.handleMC resolve o today mc).valid = false ∧
      (Part000.handleMC "full" resolve o today mc).valid = true) ∧
    (∀ u h, Extractor.extractAllData resolve o u h = none ↔
      ∃ href, smsLinkMatch h = some href ∧ resolve u href = none) := by
  have hpart : ∀ html, o (mcToSnapshotUrl mc) = Except.ok html →
      (Part000.handleMC "full" resolve o today mc).valid = allFiltersPass today html := by
    intro html ho
    rw [part000_handleMC_ok "full" resolve o today mc html ho]
    by_cases hp : allFiltersPass today html = true <;> simp [hp]
  refine ⟨?_, ?_, hpart, ?_, ?_⟩
  · intro html ho hsome
    refine ⟨?_, hpart html ho⟩
    rw [extractor_handleMC_ok resolve o today mc html ho]
    by_cases hp : allFiltersPass today html = true
    · obtain ⟨r, hr⟩ := Option.isSome_iff_exists.mp hsome
      simp [hp, hr]
    · simp [hp]
  · intro e ho
    rw [extractor_handleMC_err resolve o today mc e ho,
      part000_handleMC_err "full" resolve o today mc e ho]
    exact ⟨rfl, rfl⟩
  · intro html ho hpass hnone
    refine ⟨?_, by rw [hpart html ho, hpass]⟩
    rw [extractor_handleMC_ok resolve o today mc html ho]
    simp [hpass, hnone]
  · intro u h
    rw [extractor_extractAllData_none_iff resolve o u h]
    constructor
    · intro hn
      cases h1 : smsLinkMatch h with
      | none =>
        rw [extractor_dfe_noLink resolve o u h h1] at hn
        simp at hn
      | some href =>
        cases h2 : resolve u href with
        | none => exact ⟨href, rfl, h2⟩
        | some smsLink =>
          have := extractor_dfe_isSome resolve o u h href smsLink h1 h2
          rw [hn] at this
          simp at this
    · rintro ⟨href, h1, h2⟩
      exact extractor_dfe_throw resolve o u h href h1 h2

set_option maxRecDepth 400000 in
/-- C10 witness: the amended statement at the sample page, whose record
    construction completes (no cross-reference link), and at the diverging
    malformed-href page. -/
theorem claim_C10_witness :
    ((Extractor.handleMC sampleResolve (pageOracle samplePage) sampleToday "123").valid =
      allFiltersPass sampleToday samplePage ∧
     (Part000.handleMC "full" sampleResolve (pageOracle samplePage) sampleToday
        "123").valid = allFiltersPass sampleToday samplePage) ∧
    ((Extractor.handleMC badResolve (pageOracle pageBadHref) sampleToday "123").valid =
      false ∧
     (Part000.handleMC "full" badResolve (pageOracle pageBadHref) sampleToday
        "123").valid = true) := by
  constructor
  · exact (claim_C10_amended sampleResolve (pageOracle samplePage) sampleToday "123").1
      samplePage (by rfl) (by rfl)
  · exact (claim_C10_amended badResolve (pageOracle pageBadHref) sampleToday "123").2.2.2.1
      pageBadHref (by rfl) (by rfl) (by rfl)

end Fmcsa
